import Mathlib

/-!
Shallow embedding of the StudyMate backend services (evaluator scorer and
aggregator, the evaluate HTTP handler, the orchestrator circuit breaker and
the weighted decision engine), together with theorems settling the
specification's claims about them.

Modelling conventions: Python floats are rationals (ℚ); database tables are
lists of rows; wall-clock readings (`time.monotonic()`, SQL `NOW()`) are
explicit ℚ parameters; fallible calls return `Except`/`Option`; Python dicts
are insertion-ordered association lists.
-/

namespace StudyMate

/-! ### Evaluator scorer (`backend/evaluator/scorer.py`) -/

/-- The `SCORE_FIELDS` constant of scorer.py. -/
def SCORE_FIELDS : List String :=
  ["clarity", "tradeoffs", "adaptability", "failure_awareness", "dsa_predict"]

/-- A JSON value that can sit under one of the five score keys of a parsed
LLM response, classified by how Python's `float(val)` treats it: `jnull` is
JSON null, `jnum` a JSON number, `jstrOk` a string `float` accepts, `jstrBad`
a string `float` rejects (ValueError), `jbadType` a value whose type `float`
rejects (TypeError: list or object). -/
inductive JVal where
  | jnull : JVal
  | jnum : ℚ → JVal
  | jstrOk : ℚ → JVal
  | jstrBad : JVal
  | jbadType : JVal
deriving DecidableEq

/-- A parsed JSON object, viewed as a partial map from keys to values
(`none` = key absent). -/
abbrev JObj : Type := String → Option JVal

/-- The two Python exceptions `float(val)` can raise that matter to
`_parse_scores`: ValueError is caught by its `except` clauses, TypeError is
not. -/
inductive PyErr where
  | valueErr : PyErr
  | typeErr : PyErr
deriving DecidableEq

/-- Python `float(val)` applied to a JSON value. -/
def pyFloat : JVal → Except PyErr ℚ
  | .jnum q => .ok q
  | .jstrOk q => .ok q
  | .jstrBad => .error .valueErr
  | .jnull => .error .typeErr
  | .jbadType => .error .typeErr

/-- The scores dict built by `_parse_scores`: insertion-ordered keys mapped to
None-or-float values. -/
abbrev ScoresDict : Type := List (String × Option ℚ)

/-- The dict `\x7bfield: None for field in SCORE_FIELDS\x7d`. -/
def initScores : ScoresDict := SCORE_FIELDS.map (fun f => (f, none))

/-- In-place update `scores[k] = v` on a dict whose keys already include
every score field. -/
def setField (s : ScoresDict) (k : String) (v : ℚ) : ScoresDict :=
  s.map (fun p => if p.1 = k then (p.1, some v) else p)

/-- The `for field in SCORE_FIELDS` loop shared by both parsing strategies of
`_parse_scores`: each present, non-null field is converted with `float` and
stored. A raised error stops the loop; since Python mutates `scores` in
place, the partially updated dict survives the exception and is returned
alongside it. -/
def fillScores (data : JObj) : List String → ScoresDict → ScoresDict × Option PyErr
  | [], s => (s, none)
  | f :: rest, s =>
    match data f with
    | none => fillScores data rest s
    | some .jnull => fillScores data rest s
    | some v =>
      match pyFloat v with
      | .ok q => fillScores data rest (setField s f q)
      | .error e => (s, some e)

/-- Strategy 2 of `_parse_scores` (`_extract_json_block` + re-parse), run on
the dict left behind by strategy 1. `extracted = none` covers both "no JSON
block found" and "block found but `json.loads` failed"; either way the dict
is returned as is. A ValueError inside the loop is caught (`except ... pass`)
and the partially updated dict is returned; a TypeError propagates. -/
def parseScoresStrategy2 : Option JObj → ScoresDict → Except Unit ScoresDict
  | none, s => .ok s
  | some data, s =>
    match fillScores data SCORE_FIELDS s with
    | (s', none) => .ok s'
    | (s', some .valueErr) => .ok s'
    | (_, some .typeErr) => .error ()

/-- The `_parse_scores` function of scorer.py. `direct` is the outcome of
`json.loads(content.strip())` (`none` on JSONDecodeError) and `extracted`
the outcome of extracting and parsing a JSON block from the raw content.
`Except.error ()` models an uncaught TypeError escaping the function. -/
def parseScores : Option JObj → Option JObj → Except Unit ScoresDict
  | some data, extracted =>
    (match fillScores data SCORE_FIELDS initScores with
      | (s, none) => .ok s
      | (s, some .valueErr) => parseScoresStrategy2 extracted s
      | (_, some .typeErr) => .error ())
  | none, extracted => parseScoresStrategy2 extracted initScores

/-! ### Aggregator (`backend/evaluator/aggregator.py`) -/

/-- A row of the `public.scores` table: five nullable numeric columns. -/
structure ScoreRow where
  user_id : String
  clarity : Option ℚ
  tradeoffs : Option ℚ
  adaptability : Option ℚ
  failure_awareness : Option ℚ
  dsa_predict : Option ℚ
deriving DecidableEq

/-- A row of the `public.user_state` table. `last_update` is a timestamp. -/
structure UserStateRow where
  user_id : String
  clarity_avg : ℚ
  tradeoff_avg : ℚ
  adaptability_avg : ℚ
  failure_awareness_avg : ℚ
  dsa_predict_skill : ℚ
  next_module : Option String
  last_update : ℚ
deriving DecidableEq

/-- SQL `AVG` over a nullable column: NULL inputs are ignored; the result is
NULL when no non-null input exists. -/
def sqlAvg (xs : List (Option ℚ)) : Option ℚ :=
  let vs := xs.filterMap id
  if vs.isEmpty then none else some (vs.sum / vs.length)

/-- SQL `COALESCE(a, b)` with non-null `b`. -/
def coalesce (a : Option ℚ) (b : ℚ) : ℚ := a.getD b

/-- The aggregation `UPDATE` of `update_user_state` restricted to one user's
`user_state` row. When the user has rows in `scores`, the grouped subquery
produces one row of per-column `AVG`s and each average column becomes
`COALESCE(AVG, old value)` while `last_update` is set to `NOW()`; when the
user has no `scores` rows the subquery is empty, the `UPDATE` matches
nothing, and the row is left untouched. -/
def updateUserStateRow (scores : List ScoreRow) (uid : String) (now : ℚ)
    (us : UserStateRow) : UserStateRow :=
  let mine := scores.filter (fun r => r.user_id == uid)
  if mine.isEmpty then us
  else
    { us with
      clarity_avg := coalesce (sqlAvg (mine.map (·.clarity))) us.clarity_avg
      tradeoff_avg := coalesce (sqlAvg (mine.map (·.tradeoffs))) us.tradeoff_avg
      adaptability_avg := coalesce (sqlAvg (mine.map (·.adaptability))) us.adaptability_avg
      failure_awareness_avg :=
        coalesce (sqlAvg (mine.map (·.failure_awareness))) us.failure_awareness_avg
      dsa_predict_skill := coalesce (sqlAvg (mine.map (·.dsa_predict))) us.dsa_predict_skill
      last_update := now }

/-! ### Evaluate endpoint (`backend/evaluator/main.py`) -/

/-- A row of the `public.interactions` table. -/
structure InteractionRow where
  user_id : String
  module : String
  step_type : String
  question : String
  user_answer : String
deriving DecidableEq

/-- The three tables the evaluator touches. -/
structure Db where
  interactions : List InteractionRow
  scores : List ScoreRow
  user_state : List UserStateRow
deriving DecidableEq

/-- The request body of POST /evaluate. -/
structure EvaluationRequest where
  user_id : String
  module : String
  question : String
  answer : String
deriving DecidableEq

/-- An HTTP response of the evaluate endpoint: status code plus the JSON
body's `status` field. -/
structure EvaluationResponse where
  statusCode : ℕ
  status : String
deriving DecidableEq

/-- The failure points of one run of the evaluate handler: whether the pool
exists, whether each DB statement succeeds, the outcome of `score` (which may
raise), and the clock value used by the aggregation's `NOW()`. -/
structure EvalEnv where
  poolAvailable : Bool
  interactionInsertOk : Bool
  llmResult : Except Unit ScoresDict
  scoresInsertOk : Bool
  aggregationOk : Bool
  now : ℚ

/-- Python `scores.get(k)` on the parsed scores dict: `None` when the key is
missing, else the stored (itself nullable) value — flattened. -/
def dictGet (s : ScoresDict) (k : String) : Option ℚ := (s.lookup k).join

/-- The `scores` row inserted by `save_scores`. -/
def scoreRowOf (req : EvaluationRequest) (s : ScoresDict) : ScoreRow :=
  { user_id := req.user_id
    clarity := dictGet s "clarity"
    tradeoffs := dictGet s "tradeoffs"
    adaptability := dictGet s "adaptability"
    failure_awareness := dictGet s "failure_awareness"
    dsa_predict := dictGet s "dsa_predict" }

/-- Modelled from the spec: the `user_state` schema defaults (the CREATE
TABLE statement is not under src). Per the spec a fresh row has all five
averages at 1.0 (the "healthy" default for a new user) and no next_module. -/
def defaultUserStateRow (uid : String) : UserStateRow :=
  ⟨uid, 1, 1, 1, 1, 1, none, 0⟩

/-- The whole of `update_user_state` at table granularity: upsert the user's
row (INSERT ... ON CONFLICT DO NOTHING), then run the aggregation UPDATE,
which touches only that user's row. -/
def updateUserStateTable (db : Db) (uid : String) (now : ℚ) : Db :=
  let tbl :=
    if db.user_state.any (fun r => r.user_id == uid) then db.user_state
    else db.user_state ++ [defaultUserStateRow uid]
  { db with
    user_state := tbl.map (fun r =>
      if r.user_id == uid then updateUserStateRow db.scores uid now r else r) }

/-- The POST /evaluate handler: save the interaction, score via the LLM
(exceptions caught, falling back to all-null scores), save the scores row,
update the aggregate user state, and reply — every internal failure is
swallowed and the reply is always HTTP 200 with status "ok". -/
def evaluate (env : EvalEnv) (req : EvaluationRequest) (db : Db) :
    EvaluationResponse × Db :=
  if !env.poolAvailable then ({ statusCode := 200, status := "ok" }, db)
  else
    let db₁ :=
      if env.interactionInsertOk then
        { db with interactions :=
            db.interactions ++ [⟨req.user_id, req.module, "core", req.question, req.answer⟩] }
      else db
    let scores :=
      match env.llmResult with
      | .ok s => s
      | .error _ => initScores
    let db₂ :=
      if env.scoresInsertOk then { db₁ with scores := db₁.scores ++ [scoreRowOf req scores] }
      else db₁
    let db₃ :=
      if env.aggregationOk then updateUserStateTable db₂ req.user_id env.now else db₂
    ({ statusCode := 200, status := "ok" }, db₃)

/-! ### Circuit breaker (`backend/orchestrator/circuit_breaker.py`) -/

/-- The circuit breaker state machine's states. (`open` is a Lean keyword,
hence `opened`.) -/
inductive CBState where
  | closed : CBState
  | opened : CBState
  | half_open : CBState
deriving DecidableEq

/-- A circuit breaker: its constructor configuration, its raw `_state`, its
`CircuitBreakerStats`, and the `_half_open_calls` probe counter.
`time.monotonic()` readings are ℚ, passed in explicitly. -/
structure CircuitBreaker where
  failure_threshold : ℕ
  recovery_timeout_s : ℚ
  half_open_max_calls : ℕ
  state_raw : CBState
  total_calls : ℕ
  total_successes : ℕ
  total_failures : ℕ
  total_rejections : ℕ
  consecutive_failures : ℕ
  consecutive_successes : ℕ
  last_failure_time : Option ℚ
  last_success_time : Option ℚ
  state_changes : ℕ
  last_state_change_time : Option ℚ
  half_open_calls : ℕ
deriving DecidableEq

/-- A freshly constructed breaker: CLOSED, all stats zero. -/
def CircuitBreaker.init (ft : ℕ) (rt : ℚ) (hm : ℕ) : CircuitBreaker :=
  ⟨ft, rt, hm, .closed, 0, 0, 0, 0, 0, 0, none, none, 0, none, 0⟩

/-- The private `_transition` method: change state, bump the change counter,
reset `_half_open_calls` when entering HALF_OPEN and `consecutive_failures`
when entering CLOSED. -/
def CircuitBreaker.transition (cb : CircuitBreaker) (new : CBState) (now : ℚ) :
    CircuitBreaker :=
  { cb with
    state_raw := new
    state_changes := cb.state_changes + 1
    last_state_change_time := some now
    half_open_calls := if new = .half_open then 0 else cb.half_open_calls
    consecutive_failures := if new = .closed then 0 else cb.consecutive_failures }

/-- The `state` property: lazily transitions OPEN → HALF_OPEN (mutating the
breaker) once `recovery_timeout_s` has elapsed since the last failure, then
yields the current state. -/
def CircuitBreaker.stateAt (cb : CircuitBreaker) (now : ℚ) : CircuitBreaker × CBState :=
  match cb.state_raw, cb.last_failure_time with
  | .opened, some t =>
    if cb.recovery_timeout_s ≤ now - t then
      (cb.transition .half_open now, .half_open)
    else (cb, .opened)
  | s, _ => (cb, s)

/-- The `is_available` property: reads `state` (triggering the lazy
transition), then answers per the resulting state. -/
def CircuitBreaker.is_available (cb : CircuitBreaker) (now : ℚ) :
    CircuitBreaker × Bool :=
  let p := cb.stateAt now
  match p.2 with
  | .closed => (p.1, true)
  | .half_open => (p.1, Decidable.decide (p.1.half_open_calls < p.1.half_open_max_calls))
  | .opened => (p.1, false)

/-- The `record_success` method. -/
def CircuitBreaker.record_success (cb : CircuitBreaker) (now : ℚ) : CircuitBreaker :=
  let cb :=
    { cb with
      total_calls := cb.total_calls + 1
      total_successes := cb.total_successes + 1
      consecutive_successes := cb.consecutive_successes + 1
      consecutive_failures := 0
      last_success_time := some now }
  if cb.state_raw = .half_open then
    let cb := { cb with half_open_calls := cb.half_open_calls + 1 }
    if cb.half_open_max_calls ≤ cb.consecutive_successes then cb.transition .closed now
    else cb
  else cb

/-- The `record_failure` method. -/
def CircuitBreaker.record_failure (cb : CircuitBreaker) (now : ℚ) : CircuitBreaker :=
  let cb :=
    { cb with
      total_calls := cb.total_calls + 1
      total_failures := cb.total_failures + 1
      consecutive_failures := cb.consecutive_failures + 1
      consecutive_successes := 0
      last_failure_time := some now }
  if cb.state_raw = .half_open then cb.transition .opened now
  else if cb.failure_threshold ≤ cb.consecutive_failures then cb.transition .opened now
  else cb

/-- The manual `reset` method. -/
def CircuitBreaker.reset (cb : CircuitBreaker) (now : ℚ) : CircuitBreaker :=
  let cb := cb.transition .closed now
  { cb with consecutive_failures := 0, consecutive_successes := 0 }

/-- One observable operation on a breaker, with the clock value at which it
happens. Property reads mutate via the lazy transition, so they are
operations too. -/
inductive CBOp where
  | record_success : ℚ → CBOp
  | record_failure : ℚ → CBOp
  | read_state : ℚ → CBOp
  | read_available : ℚ → CBOp
  | reset : ℚ → CBOp
deriving DecidableEq

/-- Effect of one operation on the breaker. -/
def CircuitBreaker.step (cb : CircuitBreaker) : CBOp → CircuitBreaker
  | .record_success t => cb.record_success t
  | .record_failure t => cb.record_failure t
  | .read_state t => (cb.stateAt t).1
  | .read_available t => (cb.is_available t).1
  | .reset t => cb.reset t

/-- Run a whole operation sequence. -/
def CircuitBreaker.run (cb : CircuitBreaker) (ops : List CBOp) : CircuitBreaker :=
  ops.foldl CircuitBreaker.step cb

/-! ### Orchestrator config (`backend/orchestrator/config.py`) -/

/-- A learning module the orchestrator can route to. -/
structure ModuleDefinition where
  name : String
  label : String
  description : String
  route : String
  port : Option ℕ := none
  base_url : Option String := none
  remediation_skills : List String := []
  prerequisite_modules : List String := []
  weight : ℚ := 1
  cooldown_minutes : ℕ := 30
deriving DecidableEq

/-- The module registry (insertion-ordered dict). -/
def MODULES : List (String × ModuleDefinition) :=
  [ ("onboarding",
     { name := "onboarding", label := "Onboarding"
       description := "Set up your goals, preferences, and learning profile."
       route := "/onboarding", weight := 0.5, cooldown_minutes := 1440 }),
    ("production_interview",
     { name := "production_interview", label := "Mock Interview"
       description := "Practice production thinking, clarity, and adaptability in realistic mock interviews."
       route := "/mock-interview", port := some 8002, base_url := some "http://127.0.0.1:8002"
       remediation_skills := ["clarity_avg", "adaptability_avg"]
       weight := 1.2, cooldown_minutes := 15 }),
    ("interactive_course",
     { name := "interactive_course", label := "Interactive Course"
       description := "Learn system design, tradeoffs, and failure analysis through AI-powered courses."
       route := "/course-generator", port := some 8008, base_url := some "http://127.0.0.1:8008"
       remediation_skills := ["tradeoff_avg", "failure_awareness_avg"]
       weight := 1, cooldown_minutes := 20 }),
    ("dsa_practice",
     { name := "dsa_practice", label := "DSA Practice"
       description := "Strengthen algorithm fundamentals with AI-guided problem solving."
       route := "/dsa-sheet", port := some 8004, base_url := some "http://127.0.0.1:8004"
       remediation_skills := ["dsa_predict_skill"]
       weight := 1, cooldown_minutes := 10 }),
    ("resume_builder",
     { name := "resume_builder", label := "Resume Builder"
       description := "Optimize your resume for target roles with AI analysis."
       route := "/resume-analyzer", port := some 8003, base_url := some "http://127.0.0.1:8003"
       weight := 0.7, cooldown_minutes := 60 }),
    ("project_studio",
     { name := "project_studio", label := "Project Studio"
       description := "Apply your skills to a real project with multi-agent AI collaboration."
       route := "/project-studio", port := some 8012, base_url := some "http://127.0.0.1:8012"
       prerequisite_modules := ["production_interview", "interactive_course"]
       weight := 0.9, cooldown_minutes := 30 }) ]

/-- EngineConfig with its default values (the fields the engine reads). -/
structure EngineConfig where
  weakness_threshold : ℚ := 0.4
  strength_threshold : ℚ := 0.75
  critical_threshold : ℚ := 0.2
  decay_alpha : ℚ := 0.3
  score_window_days : ℕ := 30
  weakness_severity_weight : ℚ := 0.40
  rate_of_change_weight : ℚ := 0.15
  recency_weight : ℚ := 0.15
  goal_alignment_weight : ℚ := 0.15
  pattern_weight : ℚ := 0.15
  max_consecutive_same_module : ℕ := 3
  min_modules_before_repeat : ℕ := 1
  cb_failure_threshold : ℕ := 5
  cb_recovery_timeout_s : ℕ := 60
  cb_half_open_max_calls : ℕ := 2
deriving DecidableEq

/-- The `SKILL_DIMENSIONS` metadata restricted to the `label` entries, the
only part the engine reads. -/
def SKILL_DIMENSIONS : List (String × String) :=
  [ ("clarity_avg", "Clarity"),
    ("tradeoff_avg", "Tradeoff Analysis"),
    ("adaptability_avg", "Adaptability"),
    ("failure_awareness_avg", "Failure Awareness"),
    ("dsa_predict_skill", "DSA Skills") ]

/-- The `GOAL_SKILL_WEIGHTS` role profiles. -/
def GOAL_SKILL_WEIGHTS : List (String × List (String × ℚ)) :=
  [ ("backend_engineer",
     [("clarity_avg", 1), ("tradeoff_avg", 1.3), ("adaptability_avg", 1),
      ("failure_awareness_avg", 1.3), ("dsa_predict_skill", 1.2)]),
    ("frontend_engineer",
     [("clarity_avg", 1.2), ("tradeoff_avg", 1), ("adaptability_avg", 1.3),
      ("failure_awareness_avg", 0.8), ("dsa_predict_skill", 0.9)]),
    ("fullstack_engineer",
     [("clarity_avg", 1.1), ("tradeoff_avg", 1.2), ("adaptability_avg", 1.1),
      ("failure_awareness_avg", 1.1), ("dsa_predict_skill", 1.1)]),
    ("ml_engineer",
     [("clarity_avg", 1), ("tradeoff_avg", 1.3), ("adaptability_avg", 1),
      ("failure_awareness_avg", 1.2), ("dsa_predict_skill", 1.4)]),
    ("devops_engineer",
     [("clarity_avg", 0.9), ("tradeoff_avg", 1.2), ("adaptability_avg", 1.1),
      ("failure_awareness_avg", 1.5), ("dsa_predict_skill", 0.7)]),
    ("default",
     [("clarity_avg", 1), ("tradeoff_avg", 1), ("adaptability_avg", 1),
      ("failure_awareness_avg", 1), ("dsa_predict_skill", 1)]) ]

/-! ### Orchestrator models (`backend/orchestrator/models.py`) -/

/-- The five skill dimensions of a user. -/
structure SkillScores where
  clarity_avg : ℚ := 1
  tradeoff_avg : ℚ := 1
  adaptability_avg : ℚ := 1
  failure_awareness_avg : ℚ := 1
  dsa_predict_skill : ℚ := 1
deriving DecidableEq

/-- `SkillScores.to_dict` (`model_dump`): the insertion-ordered field dict. -/
def SkillScores.to_dict (s : SkillScores) : List (String × ℚ) :=
  [ ("clarity_avg", s.clarity_avg),
    ("tradeoff_avg", s.tradeoff_avg),
    ("adaptability_avg", s.adaptability_avg),
    ("failure_awareness_avg", s.failure_awareness_avg),
    ("dsa_predict_skill", s.dsa_predict_skill) ]

/-- `SkillScores.weakest_dimension`: the key of the smallest value strictly
below the threshold (first minimum wins, as Python's `min` does), or none. -/
def SkillScores.weakest_dimension (s : SkillScores) (threshold : ℚ) : Option String :=
  match s.to_dict.filter (fun p => Decidable.decide (p.2 < threshold)) with
  | [] => none
  | b :: bs => some (bs.foldl (fun best p => if p.2 < best.2 then p else best) b).1

/-- `SkillScores.all_healthy`. -/
def SkillScores.all_healthy (s : SkillScores) (threshold : ℚ) : Bool :=
  s.to_dict.all (fun p => Decidable.decide (threshold ≤ p.2))

/-- The user state snapshot handed to the engine. -/
structure UserState where
  user_id : String
  scores : SkillScores := {}
  next_module : Option String := none
  target_role : Option String := none
  primary_focus : Option String := none
  recent_modules : List String := []
  module_visit_counts : List (String × ℕ) := []
deriving DecidableEq

/-- A memory event as the engine reads it (`event_type` and `module` keys). -/
structure MemoryEvent where
  event_type : String
  module : String
deriving DecidableEq

/-- A memory pattern as the engine reads it. -/
structure MemoryPattern where
  description : String
  pattern_type : String
  confidence : ℚ
deriving DecidableEq

/-- The optional memory-context map: whether the `stats` entry is non-empty
(truthy), plus the `recent_events` and `patterns` lists. -/
structure MemoryContext where
  stats_present : Bool := false
  recent_events : List MemoryEvent := []
  patterns : List MemoryPattern := []
deriving DecidableEq

/-- Decision urgency levels. -/
inductive DecisionDepth where
  | normal : DecisionDepth
  | remediation : DecisionDepth
  | critical : DecisionDepth
  | onboarding : DecisionDepth
deriving DecidableEq

/-- The scoring breakdown for one candidate module. -/
structure ModuleScore where
  module : String
  total_score : ℚ := 0
  weakness_severity_score : ℚ := 0
  rate_of_change_score : ℚ := 0
  recency_score : ℚ := 0
  goal_alignment_score : ℚ := 0
  pattern_score : ℚ := 0
  cooldown_penalty : ℚ := 0
  diversity_bonus : ℚ := 0
deriving DecidableEq

/-- The engine's routing decision (the fields the engine itself fills). -/
structure Decision where
  next_module : String
  reason : String
  rule_reason : String
  description : String := ""
  depth : DecisionDepth := .normal
  weakness_trigger : Option String := none
  scores : Option (List (String × ℚ)) := none
  memory_context : String := ""
  confidence : ℚ := 1
  candidate_scores : List ModuleScore := []
deriving DecidableEq

/-! ### Decision engine (`backend/orchestrator/engine.py`) -/

/-- Python's lowercasing of a string, character by character. -/
def pyLower (s : String) : String := String.mk (s.toList.map Char.toLower)

/-- Python's `needle in haystack` substring test. -/
def pyContains (needle haystack : String) : Bool :=
  Decidable.decide (needle.toList <:+: haystack.toList)

/-- Python truthiness of an optional string (None and "" are falsy). -/
def truthyStr : Option String → Bool
  | none => false
  | some s => !s.isEmpty

namespace DecisionEngine

/-- `_determine_depth`: classify the urgency of the routing decision. -/
def determine_depth (cfg : EngineConfig) (state : UserState) : DecisionDepth :=
  let scores := state.scores.to_dict
  if scores.any (fun p => Decidable.decide (p.2 < cfg.critical_threshold)) then .critical
  else if scores.any (fun p => Decidable.decide (p.2 < cfg.weakness_threshold)) then .remediation
  else if scores.all (fun p => Decidable.decide ((0.99 : ℚ) ≤ p.2))
      && state.recent_modules.isEmpty then .onboarding
  else .normal

/-- `_get_candidates`: every registry module except those whose service is
known-unhealthy (modules with a base_url only) and except onboarding once the
user has history. -/
def get_candidates (state : UserState) (service_health : List (String × Bool)) :
    List String :=
  (MODULES.filter (fun p =>
    !(p.2.base_url.isSome && (service_health.lookup p.1 == some false))
      && !(p.1 == "onboarding" && !state.recent_modules.isEmpty))).map Prod.fst

/-- `_calc_weakness_severity`. -/
def calc_weakness_severity (cfg : EngineConfig) (mod_def : ModuleDefinition)
    (state : UserState) : ℚ :=
  if mod_def.remediation_skills.isEmpty then
    if state.scores.all_healthy cfg.weakness_threshold then 0.6 else 0.1
  else
    let scores := state.scores.to_dict
    let severities := mod_def.remediation_skills.map (fun skill =>
      let val := (scores.lookup skill).getD 1
      if val < cfg.critical_threshold then 1
      else if val < cfg.weakness_threshold then max 0.4 (1 - val / cfg.weakness_threshold)
      else 0)
    severities.max?.getD 0

/-- `_calc_rate_of_change`: weakness-event ratio among recent memory events
(the `elif` makes "strength" count only when "weakness" does not match). -/
def calc_rate_of_change (_mod_def : ModuleDefinition) (_state : UserState)
    (mem : MemoryContext) : ℚ :=
  if !mem.stats_present then 0.5
  else if mem.recent_events.isEmpty then 0.5
  else
    let wc := (mem.recent_events.filter (fun e => pyContains "weakness" e.event_type)).length
    let sc := (mem.recent_events.filter (fun e =>
      !pyContains "weakness" e.event_type && pyContains "strength" e.event_type)).length
    if wc + sc = 0 then 0.5 else (wc : ℚ) / ((wc : ℚ) + (sc : ℚ))

/-- `_calc_recency_score`: 0.5 with no history; position-based when the
module occurs in `recent_modules` (index 0 = most recent); 0.8 when the
module was never visited (`list.index` raises ValueError). -/
def calc_recency_score (mod_name : String) (state : UserState) : ℚ :=
  if state.recent_modules.isEmpty then 0.5
  else
    match state.recent_modules.indexOf? mod_name with
    | some idx => min 1 ((idx : ℚ) / ((max state.recent_modules.length 1 : ℕ) : ℚ))
    | none => 0.8

/-- The role-key normalisation of `_calc_goal_alignment`:
`role.lower().replace(" ", "_").replace("-", "_")`. -/
def normalize_role (role : String) : String :=
  String.mk (role.toList.map (fun c =>
    let c' := c.toLower
    if c' = ' ' ∨ c' = '-' then '_' else c'))

/-- `_calc_goal_alignment`. -/
def calc_goal_alignment (mod_def : ModuleDefinition) (state : UserState) : ℚ :=
  if !truthyStr state.target_role || mod_def.remediation_skills.isEmpty then 0.5
  else
    let role_key := normalize_role (state.target_role.getD "")
    let weights := (GOAL_SKILL_WEIGHTS.lookup role_key).getD
      ((GOAL_SKILL_WEIGHTS.lookup "default").getD [])
    let alignment_values := mod_def.remediation_skills.map (fun skill =>
      (weights.lookup skill).getD 1)
    if alignment_values.isEmpty then 0.5
    else
      let avg := alignment_values.sum / alignment_values.length
      min 1 (max 0 ((avg - 0.7) / 0.8))

/-- `_calc_pattern_signal`: add each pattern's confidence once per
remediation skill whose (lowercased) label occurs in the pattern's
(lowercased) description; clamp at 1. -/
def calc_pattern_signal (mod_name : String) (mem : MemoryContext) : ℚ :=
  if mem.patterns.isEmpty then 0.5
  else
    match MODULES.lookup mod_name with
    | none => 0.3
    | some mod_def =>
      if mod_def.remediation_skills.isEmpty then 0.3
      else
        let relevant := (mem.patterns.map (fun pat =>
          let desc := pyLower pat.description
          (mod_def.remediation_skills.map (fun skill =>
            let skill_label := pyLower ((SKILL_DIMENSIONS.lookup skill).getD "")
            if !skill_label.isEmpty && pyContains skill_label desc then pat.confidence
            else 0)).sum)).sum
        min 1 relevant

/-- `_calc_cooldown_penalty`. -/
def calc_cooldown_penalty (cfg : EngineConfig) (mod_name : String)
    (state : UserState) : ℚ :=
  if state.recent_modules.isEmpty then 0
  else if state.recent_modules.head? = some mod_name then 0.3
  else if mod_name ∈ state.recent_modules.take (cfg.min_modules_before_repeat + 1) then 0.15
  else 0

/-- `_calc_diversity_bonus` (`sum(...) or 1` maps a zero total to 1). -/
def calc_diversity_bonus (mod_name : String) (state : UserState) : ℚ :=
  let visit_count := (state.module_visit_counts.lookup mod_name).getD 0
  let s := (state.module_visit_counts.map Prod.snd).sum
  let total_visits : ℕ := if s = 0 then 1 else s
  max 0 (1 - ((visit_count : ℚ) / (total_visits : ℚ)) * 3)

/-- `_score_candidate`: all signals for one candidate, combined into the
weighted total. The module definition is the registry entry for the
candidate's name, resolved by the caller. -/
def score_candidate (cfg : EngineConfig) (mod_def : ModuleDefinition)
    (state : UserState) (mem : MemoryContext) : ModuleScore :=
  let ws := calc_weakness_severity cfg mod_def state
  let roc := calc_rate_of_change mod_def state mem
  let rcy := calc_recency_score mod_def.name state
  let ga := calc_goal_alignment mod_def state
  let ps := calc_pattern_signal mod_def.name mem
  let cp := calc_cooldown_penalty cfg mod_def.name state
  let dvb := calc_diversity_bonus mod_def.name state
  { module := mod_def.name
    weakness_severity_score := ws
    rate_of_change_score := roc
    recency_score := rcy
    goal_alignment_score := ga
    pattern_score := ps
    cooldown_penalty := cp
    diversity_bonus := dvb
    total_score :=
      (ws * cfg.weakness_severity_weight
        + roc * cfg.rate_of_change_weight
        + rcy * cfg.recency_weight
        + ga * cfg.goal_alignment_weight
        + ps * cfg.pattern_weight
        + dvb * 0.05
        - cp) * mod_def.weight }

/-- Length of the leading run of `recent_modules[0]` — the "consecutive
same-module recommendations" count of `_apply_diversity_filter`. -/
def count_run (lm : String) : List String → ℕ
  | [] => 0
  | m :: rest => if m = lm then count_run lm rest + 1 else 0

/-- The consecutive count as computed on the whole list (the loop in
`_apply_diversity_filter` starts from `recent_modules[0]` itself). -/
def consecutive_count : List String → ℕ
  | [] => 0
  | m :: rest => count_run m (m :: rest)

/-- `_apply_diversity_filter`: pick the second-best candidate when the best
one equals the most recent module, that module has filled the head of
`recent_modules` at least `max_consecutive_same_module` times, and a second
candidate exists; otherwise pick the best. `none` only on an empty list
(Python would raise IndexError; `decide` guards against it). -/
def apply_diversity_filter (cfg : EngineConfig) (scored : List ModuleScore)
    (state : UserState) : Option ModuleScore :=
  match scored with
  | [] => none
  | top :: rest =>
    if state.recent_modules.isEmpty then some top
    else
      let last_module := (state.recent_modules.head?).getD ""
      let consecutive := consecutive_count state.recent_modules
      if cfg.max_consecutive_same_module ≤ consecutive ∧ top.module = last_module
          ∧ rest ≠ [] then
        rest.head?
      else some top

/-- `_calculate_confidence`: gap-ratio confidence, 1 with fewer than two
candidates. -/
def calculate_confidence : List ModuleScore → ℚ
  | s₁ :: s₂ :: _ =>
    if s₁.total_score ≤ 0 then 0.5
    else min 1 (max 0.3 (0.5 + (s₁.total_score - s₂.total_score) / s₁.total_score))
  | _ => 1

/-- Python `scores.get(dim, 1.0)` on the skill dict. -/
def dim_val (s : SkillScores) (dim : String) : ℚ := (s.to_dict.lookup dim).getD 1

/-- Approximation of Python's `f"\x7bv:.2f\x7d"` (two decimals; Python
rounds the underlying binary float half-to-even, modelled here as
half-up). Only used to assemble reason strings, which no claim inspects. -/
def fmt2 (q : ℚ) : String :=
  let n : ℤ := ⌊q * 100 + 1 / 2⌋
  let fr := (n % 100).natAbs
  toString (n / 100) ++ "." ++ (if fr < 10 then "0" ++ toString fr else toString fr)

/-- Placeholder for registry misses that cannot happen on the paths `decide`
takes (Python would raise AttributeError there). -/
def junkModule : ModuleDefinition :=
  { name := "", label := "", description := "", route := "" }

/-- `_build_rule_reason`. -/
def build_rule_reason (cfg : EngineConfig) (winner : ModuleScore) (state : UserState)
    (weakness_trigger : Option String) : String :=
  let mod_def := (MODULES.lookup winner.module).getD junkModule
  match weakness_trigger with
  | some wt =>
    let val := dim_val state.scores wt
    let dim_label := (SKILL_DIMENSIONS.lookup wt).getD wt
    if val < cfg.critical_threshold then
      "Your " ++ dim_label ++ " score (" ++ fmt2 val ++
        ") is critically low. Urgent practice in " ++ mod_def.label ++ " is recommended."
    else
      "Your " ++ dim_label ++ " score (" ++ fmt2 val ++ ") is below " ++
        toString cfg.weakness_threshold ++ ". " ++ mod_def.label ++
        " will help you improve through targeted practice."
  | none =>
    if state.scores.all_healthy cfg.weakness_threshold then
      "All your skills are healthy (>= " ++ toString cfg.weakness_threshold ++ "). " ++
        mod_def.label ++ " is recommended to apply and reinforce your knowledge."
    else
      mod_def.label ++ " is your best next step based on your current skill profile."

/-- Placeholder ModuleScore for the unreachable empty-winner case. -/
def junkScore : ModuleScore := { module := "project_studio" }

/-- The full `decide` pipeline: depth, candidates, scoring, descending sort
by total score, diversity filter, and the assembled Decision (the reason is
the deterministic rule reason; the HTTP layer may replace it later). -/
def decide (cfg : EngineConfig) (state : UserState) (mem : MemoryContext)
    (service_health : List (String × Bool)) : Decision :=
  let depth := determine_depth cfg state
  let candidates := get_candidates state service_health
  if candidates.isEmpty then
    { next_module := "project_studio"
      reason := "All modules are available. Apply your skills freely!"
      rule_reason := "No candidates matched - fallback"
      description := ((MODULES.lookup "project_studio").getD junkModule).description
      depth := depth
      scores := some state.scores.to_dict
      confidence := 0.5 }
  else
    let scored := (candidates.filterMap (fun n =>
      (MODULES.lookup n).map (fun d => score_candidate cfg d state mem))).insertionSort
        (fun a b => b.total_score ≤ a.total_score)
    let winner := (apply_diversity_filter cfg scored state).getD junkScore
    let mod_def := (MODULES.lookup winner.module).getD
      ((MODULES.lookup "project_studio").getD junkModule)
    let wt := state.scores.weakest_dimension cfg.weakness_threshold
    let rr := build_rule_reason cfg winner state wt
    { next_module := winner.module
      reason := rr
      rule_reason := rr
      description := mod_def.description
      depth := depth
      weakness_trigger := wt
      scores := some state.scores.to_dict
      confidence := calculate_confidence scored
      candidate_scores := scored.take 5 }

end DecisionEngine

/-! ### Theorems for the claims -/

/-- C2: for every request body and every combination of internal outcomes —
pool unavailable, interaction insert failing, the LLM call raising or both
providers failing, the scores insert failing, the aggregation failing — the
evaluate endpoint replies HTTP 200 with body status "ok". -/
theorem evaluate_always_ok (env : EvalEnv) (req : EvaluationRequest) (db : Db) :
    (evaluate env req db).1 = { statusCode := 200, status := "ok" } := by
  unfold evaluate
  cases env.poolAvailable <;> rfl

/-- C9: at any clock value and for any breaker, `is_available` answers true
iff the state — after the lazy open → half_open recovery transition is
applied — is closed, or it is half_open with fewer than `half_open_max_calls`
calls counted in the current half-open period. -/
theorem circuit_breaker_is_available_iff (cb : CircuitBreaker) (now : ℚ) :
    (cb.is_available now).2 = true ↔
      ((cb.stateAt now).2 = CBState.closed ∨
        ((cb.stateAt now).2 = CBState.half_open ∧
          (cb.stateAt now).1.half_open_calls < (cb.stateAt now).1.half_open_max_calls)) := by
  unfold CircuitBreaker.is_available
  cases h : (cb.stateAt now).2 <;> simp [h]

/-- A user state with no module history, on which the recency signal's
claimed and actual values differ. -/
def recencyCexState : UserState := { user_id := "u0" }

/-- C4 (counterexample): with empty `recent_modules` the module does not
occur in the list, yet `_calc_recency_score` returns 0.5, not the claimed
0.8. -/
theorem recency_score_empty_cex :
    recencyCexState.recent_modules = [] ∧
    DecisionEngine.calc_recency_score "dsa_practice" recencyCexState = 0.5 ∧
    DecisionEngine.calc_recency_score "dsa_practice" recencyCexState ≠ 0.8 := by
  refine ⟨rfl, rfl, ?_⟩
  have h : DecisionEngine.calc_recency_score "dsa_practice" recencyCexState = 0.5 := rfl
  rw [h]
  norm_num

/-- C4 (amended): the recency signal returns 0.5 when `recent_modules` is
empty; 0.8 when it is non-empty and the module does not occur in it; and
min(1, index/length) when the module occurs at (first) index `i`, index 0
being the most recent entry. -/
theorem recency_score_amended (state : UserState) (mod_name : String) :
    (state.recent_modules = [] →
      DecisionEngine.calc_recency_score mod_name state = 0.5) ∧
    (state.recent_modules ≠ [] → mod_name ∉ state.recent_modules →
      DecisionEngine.calc_recency_score mod_name state = 0.8) ∧
    (∀ i : ℕ, state.recent_modules.indexOf? mod_name = some i →
      DecisionEngine.calc_recency_score mod_name state =
        min 1 ((i : ℚ) / (state.recent_modules.length : ℚ))) := by
  refine ⟨?_, ?_, ?_⟩
  · intro h
    simp [DecisionEngine.calc_recency_score, h]
  · intro hne hnm
    have hie : state.recent_modules.isEmpty = false := by simpa using hne
    have hidx : state.recent_modules.indexOf? mod_name = none := by
      rw [List.indexOf?_eq_none_iff]
      intro x hx
      simp only [beq_iff_eq]
      intro hxe
      exact hnm (hxe ▸ hx)
    simp [DecisionEngine.calc_recency_score, hidx, hie]
  · intro i hi
    have hne : state.recent_modules ≠ [] := by
      intro h
      rw [h] at hi
      simp at hi
    have hie : state.recent_modules.isEmpty = false := by simpa using hne
    have hlen : 1 ≤ state.recent_modules.length := List.length_pos.mpr hne
    have hmax : max state.recent_modules.length 1 = state.recent_modules.length :=
      Nat.max_eq_left hlen
    simp [DecisionEngine.calc_recency_score, hi, hie, hmax]

/-- C4 (witness): a concrete instance of the amended recency claim — module
absent from a non-empty history scores 0.8. -/
theorem recency_score_amended_witness :
    DecisionEngine.calc_recency_score "dsa_practice"
      { user_id := "u0", recent_modules := ["onboarding"] } = 0.8 :=
  (recency_score_amended { user_id := "u0", recent_modules := ["onboarding"] }
    "dsa_practice").2.1 (by simp) (by simp)

/-! Helper lemmas about `fillScores` and the scores dict. -/

lemma setField_keys (s : ScoresDict) (k : String) (v : ℚ) :
    (setField s k v).map Prod.fst = s.map Prod.fst := by
  induction s with
  | nil => rfl
  | cons a t ih =>
    simp only [setField, List.map_cons] at ih ⊢
    by_cases h : a.1 = k <;> simp [h, ih]

lemma fillScores_keys (data : JObj) (fields : List String) (s : ScoresDict) :
    ((fillScores data fields s).1).map Prod.fst = s.map Prod.fst := by
  induction fields generalizing s with
  | nil => rfl
  | cons f rest ih =>
    unfold fillScores
    cases hd : data f with
    | none => exact ih s
    | some v =>
      cases v with
      | jnull => exact ih s
      | jnum q => exact (ih (setField s f q)).trans (setField_keys s f q)
      | jstrOk q => exact (ih (setField s f q)).trans (setField_keys s f q)
      | jstrBad => rfl
      | jbadType => rfl

lemma strategy2_keys (extracted : Option JObj) (s₀ s : ScoresDict)
    (h : parseScoresStrategy2 extracted s₀ = Except.ok s) :
    s.map Prod.fst = s₀.map Prod.fst := by
  cases extracted with
  | none =>
    simp only [parseScoresStrategy2, Except.ok.injEq] at h
    rw [← h]
  | some data =>
    simp only [parseScoresStrategy2] at h
    have hk := fillScores_keys data SCORE_FIELDS s₀
    rcases hfs : fillScores data SCORE_FIELDS s₀ with ⟨s', e⟩
    rw [hfs] at h hk
    cases e with
    | none =>
      simp only [Except.ok.injEq] at h
      rw [← h]; exact hk
    | some e' =>
      cases e' with
      | valueErr =>
        simp only [Except.ok.injEq] at h
        rw [← h]; exact hk
      | typeErr => simp at h

lemma fillScores_no_err (data : JObj) (fields : List String) (s : ScoresDict)
    (hok : ∀ f ∈ fields, ∀ v, data f = some v → v ≠ JVal.jstrBad ∧ v ≠ JVal.jbadType) :
    (fillScores data fields s).2 = none := by
  induction fields generalizing s with
  | nil => rfl
  | cons f rest ih =>
    have hok' : ∀ f' ∈ rest, ∀ v, data f' = some v →
        v ≠ JVal.jstrBad ∧ v ≠ JVal.jbadType :=
      fun f' hf' => hok f' (List.mem_cons_of_mem f hf')
    unfold fillScores
    cases hd : data f with
    | none => exact ih s hok'
    | some v =>
      cases v with
      | jnull => exact ih s hok'
      | jnum q => exact ih _ hok'
      | jstrOk q => exact ih _ hok'
      | jstrBad => exact absurd rfl (hok f (List.mem_cons_self f rest) _ hd).1
      | jbadType => exact absurd rfl (hok f (List.mem_cons_self f rest) _ hd).2

lemma setField_lookup_self (s : ScoresDict) (k : String) (v : ℚ)
    (h : k ∈ s.map Prod.fst) : (setField s k v).lookup k = some (some v) := by
  induction s with
  | nil => simp at h
  | cons a t ih =>
    obtain ⟨a₁, a₂⟩ := a
    by_cases hk : a₁ = k
    · subst hk
      simp [setField, List.lookup_cons]
    · have h' : k ∈ t.map Prod.fst := by
        simp only [List.map_cons, List.mem_cons] at h
        rcases h with h₁ | h₁
        · exact absurd h₁.symm hk
        · exact h₁
      have hbk : (k == a₁) = false := beq_eq_false_iff_ne.mpr fun he => hk he.symm
      simp only [setField, List.map_cons, if_neg hk, List.lookup_cons, hbk]
      exact ih h'

lemma setField_lookup_ne (s : ScoresDict) (k k' : String) (v : ℚ)
    (h : k ≠ k') : (setField s k' v).lookup k = s.lookup k := by
  induction s with
  | nil => rfl
  | cons a t ih =>
    obtain ⟨a₁, a₂⟩ := a
    by_cases hk : a₁ = k'
    · have hbk : (k == a₁) = false :=
        beq_eq_false_iff_ne.mpr fun he => h (he.trans hk)
      simp only [setField, List.map_cons, if_pos hk, List.lookup_cons, hbk]
      exact ih
    · simp only [setField, List.map_cons, if_neg hk, List.lookup_cons]
      cases hka : k == a₁
      · simp only [hka]
        exact ih
      · simp only [hka]

lemma fillScores_lookup_not_mem (data : JObj) (fields : List String) (s : ScoresDict)
    (f : String) (h : f ∉ fields) :
    ((fillScores data fields s).1).lookup f = s.lookup f := by
  induction fields generalizing s with
  | nil => rfl
  | cons f' rest ih =>
    have hne : f ≠ f' := fun he => h (he ▸ List.mem_cons_self f' rest)
    have hnr : f ∉ rest := fun hm => h (List.mem_cons_of_mem f' hm)
    unfold fillScores
    cases hd : data f' with
    | none => exact ih s hnr
    | some v =>
      cases v with
      | jnull => exact ih s hnr
      | jnum q =>
        exact (ih (setField s f' q) hnr).trans (setField_lookup_ne s f f' q hne)
      | jstrOk q =>
        exact (ih (setField s f' q) hnr).trans (setField_lookup_ne s f f' q hne)
      | jstrBad => rfl
      | jbadType => rfl

lemma fillScores_lookup_nullish (data : JObj) (f : String)
    (hdf : data f = none ∨ data f = some JVal.jnull) (fields : List String)
    (s : ScoresDict) :
    ((fillScores data fields s).1).lookup f = s.lookup f := by
  induction fields generalizing s with
  | nil => rfl
  | cons f' rest ih =>
    unfold fillScores
    by_cases he : f' = f
    · subst he
      rcases hdf with h | h <;> rw [h] <;> exact ih s
    · cases hd : data f' with
      | none => exact ih s
      | some v =>
        cases v with
        | jnull => exact ih s
        | jnum q =>
          exact (ih (setField s f' q)).trans
            (setField_lookup_ne s f f' q (fun hx => he hx.symm))
        | jstrOk q =>
          exact (ih (setField s f' q)).trans
            (setField_lookup_ne s f f' q (fun hx => he hx.symm))
        | jstrBad => rfl
        | jbadType => rfl

lemma fillScores_lookup_num (data : JObj) (fields : List String) (s : ScoresDict)
    (f : String) (q : ℚ) (hnd : fields.Nodup) (hf : f ∈ fields)
    (hdf : data f = some (JVal.jnum q)) (hkey : f ∈ s.map Prod.fst)
    (hok : ∀ f' ∈ fields, ∀ v, data f' = some v →
      v ≠ JVal.jstrBad ∧ v ≠ JVal.jbadType) :
    ((fillScores data fields s).1).lookup f = some (some q) := by
  induction fields generalizing s with
  | nil => simp at hf
  | cons f' rest ih =>
    have hok' : ∀ g ∈ rest, ∀ v, data g = some v →
        v ≠ JVal.jstrBad ∧ v ≠ JVal.jbadType :=
      fun g hg => hok g (List.mem_cons_of_mem f' hg)
    have hnd' : rest.Nodup := hnd.of_cons
    by_cases he : f' = f
    · subst he
      have hnr : f' ∉ rest := (List.nodup_cons.mp hnd).1
      unfold fillScores
      rw [hdf]
      exact (fillScores_lookup_not_mem data rest (setField s f' q) f' hnr).trans
        (setField_lookup_self s f' q hkey)
    · have hfr : f ∈ rest := by
        rcases List.mem_cons.mp hf with h | h
        · exact absurd h.symm he
        · exact h
      unfold fillScores
      cases hd : data f' with
      | none => exact ih _ hnd' hfr hkey hok'
      | some v =>
        cases v with
        | jnull => exact ih _ hnd' hfr hkey hok'
        | jnum q' =>
          exact ih (setField s f' q') hnd' hfr
            (by rw [setField_keys]; exact hkey) hok'
        | jstrOk q' =>
          exact ih (setField s f' q') hnd' hfr
            (by rw [setField_keys]; exact hkey) hok'
        | jstrBad => exact absurd rfl (hok f' (List.mem_cons_self f' rest) _ hd).1
        | jbadType => exact absurd rfl (hok f' (List.mem_cons_self f' rest) _ hd).2

lemma initScores_keys : initScores.map Prod.fst = SCORE_FIELDS := rfl

lemma initScores_lookup (f : String) (hf : f ∈ SCORE_FIELDS) :
    initScores.lookup f = some none := by
  fin_cases hf <;> rfl

/-- C10 (amended): whenever `_parse_scores` returns (it can instead raise an
uncaught TypeError when a score field holds a list or object), the returned
mapping has exactly the five score keys, each None or a float. Moreover,
whenever the trimmed input parses as a JSON object AND `float()` succeeds on
every present non-null value among the five dimensions, every present
non-null numeric dimension is converted with `float()` and returned unchanged
— with no clamping or range check — and absent or null dimensions come back
as None. (The unconditional form of the pass-through is false: a ValueError
on an earlier field silently drops later numeric fields.) -/
theorem parse_scores_amended :
    (∀ (direct extracted : Option JObj) (s : ScoresDict),
      parseScores direct extracted = Except.ok s → s.map Prod.fst = SCORE_FIELDS) ∧
    (∀ (data : JObj) (extracted : Option JObj),
      (∀ f ∈ SCORE_FIELDS, ∀ v, data f = some v →
        v ≠ JVal.jstrBad ∧ v ≠ JVal.jbadType) →
      ∃ s, parseScores (some data) extracted = Except.ok s ∧
        s.map Prod.fst = SCORE_FIELDS ∧
        (∀ f ∈ SCORE_FIELDS, ∀ q : ℚ, data f = some (JVal.jnum q) →
          s.lookup f = some (some q)) ∧
        (∀ f ∈ SCORE_FIELDS, (data f = none ∨ data f = some JVal.jnull) →
          s.lookup f = some none)) := by
  constructor
  · intro direct extracted s h
    cases direct with
    | none =>
      simp only [parseScores] at h
      rw [strategy2_keys extracted initScores s h]
      rfl
    | some data =>
      simp only [parseScores] at h
      have hk := fillScores_keys data SCORE_FIELDS initScores
      rcases hfs : fillScores data SCORE_FIELDS initScores with ⟨s', e⟩
      rw [hfs] at h hk
      cases e with
      | none => cases h; exact hk
      | some e' =>
        cases e' with
        | valueErr => rw [strategy2_keys extracted s' s h]; exact hk
        | typeErr => cases h
  · intro data extracted hok
    have hne := fillScores_no_err data SCORE_FIELDS initScores hok
    rcases hfs : fillScores data SCORE_FIELDS initScores with ⟨s, e⟩
    rw [hfs] at hne
    dsimp only at hne
    subst hne
    refine ⟨s, ?_, ?_, ?_, ?_⟩
    · simp only [parseScores]
      rw [hfs]
    · have hk := fillScores_keys data SCORE_FIELDS initScores
      rw [hfs] at hk
      exact hk
    · intro f hf q hdf
      have := fillScores_lookup_num data SCORE_FIELDS initScores f q
        (by decide) hf hdf (by rw [initScores_keys]; exact hf) hok
      rw [hfs] at this
      exact this
    · intro f hf hdf
      have := fillScores_lookup_nullish data f hdf SCORE_FIELDS initScores
      rw [hfs] at this
      dsimp only at this
      rw [this, initScores_lookup f hf]

/-- The parsed form of an LLM reply whose JSON object holds
clarity = "abc" (a string `float` rejects) and tradeoffs = 0.7. -/
def parseCexObj : JObj := fun k =>
  if k = "clarity" then some JVal.jstrBad
  else if k = "tradeoffs" then some (JVal.jnum 0.7)
  else none

/-- C10 (counterexample): the input parses as a JSON object whose
`tradeoffs` is present, non-null and numeric (0.7), yet `_parse_scores`
returns None for it — the ValueError raised by `float` on the earlier
`clarity` field aborts both parsing passes, so the claimed unconditional
pass-through of numeric dimensions is false. -/
theorem parse_scores_passthrough_cex :
    parseCexObj "tradeoffs" = some (JVal.jnum 0.7) ∧
    parseScores (some parseCexObj) (some parseCexObj) = Except.ok initScores ∧
    initScores.lookup "tradeoffs" = some none ∧
    (some none : Option (Option ℚ)) ≠ some (some 0.7) := by
  refine ⟨rfl, rfl, rfl, by simp⟩

/-- The parsed form of an LLM reply with an out-of-range clarity = 1.5. -/
def passthroughObj : JObj := fun k =>
  if k = "clarity" then some (JVal.jnum 1.5) else none

/-- C10 (witness): the amended theorem applied to a reply whose clarity is
the out-of-range number 1.5 — the value is passed through unchanged. -/
theorem parse_scores_amended_witness :
    ∃ s, parseScores (some passthroughObj) none = Except.ok s ∧
      s.map Prod.fst = SCORE_FIELDS ∧ s.lookup "clarity" = some (some 1.5) := by
  have hok : ∀ f ∈ SCORE_FIELDS, ∀ v, passthroughObj f = some v →
      v ≠ JVal.jstrBad ∧ v ≠ JVal.jbadType := by
    intro f hf v hv
    by_cases hc : f = "clarity"
    · subst hc
      rw [show passthroughObj "clarity" = some (JVal.jnum 1.5) from rfl] at hv
      injection hv with hv
      subst hv
      exact ⟨by simp, by simp⟩
    · simp only [passthroughObj, if_neg hc] at hv
      exact absurd hv (by simp)
  obtain ⟨s, h1, h2, h3, _⟩ := parse_scores_amended.2 passthroughObj none hok
  exact ⟨s, h1, h2, h3 "clarity" (by decide) 1.5 rfl⟩

/-! Helper lemmas about the SQL aggregation. -/

lemma coalesce_getD_idem (o : Option ℚ) (d : ℚ) :
    coalesce o (coalesce o d) = coalesce o d := by
  cases o <;> rfl

lemma sqlAvg_coalesce_mem_unit (xs : List (Option ℚ)) (d : ℚ)
    (hxs : ∀ v : ℚ, some v ∈ xs → 0 ≤ v ∧ v ≤ 1) (hd : 0 ≤ d ∧ d ≤ 1) :
    0 ≤ coalesce (sqlAvg xs) d ∧ coalesce (sqlAvg xs) d ≤ 1 := by
  unfold coalesce sqlAvg
  rcases hv : xs.filterMap id with _ | ⟨a, l⟩
  · simpa using hd
  · have hmem : ∀ v ∈ a :: l, 0 ≤ v ∧ v ≤ 1 := by
      intro v hvm
      apply hxs
      rw [← hv] at hvm
      rcases List.mem_filterMap.mp hvm with ⟨o, ho, hoe⟩
      cases o with
      | none => cases hoe
      | some w => cases hoe; exact ho
    have hlen : (0 : ℚ) < ((a :: l).length : ℚ) := by
      have : 0 < (a :: l).length := List.length_pos.mpr (by simp)
      exact_mod_cast this
    have hsum0 : 0 ≤ (a :: l).sum := List.sum_nonneg fun v hvm => (hmem v hvm).1
    have hsum1 : (a :: l).sum ≤ ((a :: l).length : ℚ) := by
      have h := List.sum_le_card_nsmul (a :: l) 1 fun v hvm => (hmem v hvm).2
      simpa [nsmul_eq_mul] using h
    simp only [List.isEmpty_cons, if_false, Bool.false_eq_true, Option.getD_some]
    constructor
    · exact div_nonneg hsum0 hlen.le
    · rw [div_le_one hlen]
      exact hsum1

lemma sqlAvg_coalesce_mean (xs : List (Option ℚ)) (d : ℚ)
    (h : xs.filterMap id ≠ []) :
    coalesce (sqlAvg xs) d = (xs.filterMap id).sum / ((xs.filterMap id).length : ℚ) := by
  unfold coalesce sqlAvg
  rw [if_neg (by simpa using h)]
  rfl

/-- The non-null entries of one column among one user's scores rows. -/
def userVals (scores : List ScoreRow) (uid : String) (col : ScoreRow → Option ℚ) :
    List ℚ :=
  ((scores.filter (fun r => r.user_id == uid)).map col).filterMap id

/-- C1 (amended): provided every non-null entry in the user's scores rows
lies in [0,1] and the prior user_state values lie in [0,1], then after
`update_user_state` every one of the five skill dimensions lies in [0,1]
(finiteness is inherent to the rational model); and each dimension is
aggregated as the mean over the column's non-null entries whenever any
exist. Without the precondition on the table the claim is false, because
nothing clamps the parsed LLM scores. -/
theorem aggregator_unit_interval_amended (scores : List ScoreRow) (uid : String)
    (now : ℚ) (us : UserStateRow)
    (hrows : ∀ r ∈ scores, r.user_id = uid → ∀ v : ℚ,
      (r.clarity = some v ∨ r.tradeoffs = some v ∨ r.adaptability = some v ∨
        r.failure_awareness = some v ∨ r.dsa_predict = some v) → 0 ≤ v ∧ v ≤ 1)
    (hus : (0 ≤ us.clarity_avg ∧ us.clarity_avg ≤ 1) ∧
      (0 ≤ us.tradeoff_avg ∧ us.tradeoff_avg ≤ 1) ∧
      (0 ≤ us.adaptability_avg ∧ us.adaptability_avg ≤ 1) ∧
      (0 ≤ us.failure_awareness_avg ∧ us.failure_awareness_avg ≤ 1) ∧
      (0 ≤ us.dsa_predict_skill ∧ us.dsa_predict_skill ≤ 1)) :
    ((0 ≤ (updateUserStateRow scores uid now us).clarity_avg ∧
        (updateUserStateRow scores uid now us).clarity_avg ≤ 1) ∧
      (0 ≤ (updateUserStateRow scores uid now us).tradeoff_avg ∧
        (updateUserStateRow scores uid now us).tradeoff_avg ≤ 1) ∧
      (0 ≤ (updateUserStateRow scores uid now us).adaptability_avg ∧
        (updateUserStateRow scores uid now us).adaptability_avg ≤ 1) ∧
      (0 ≤ (updateUserStateRow scores uid now us).failure_awareness_avg ∧
        (updateUserStateRow scores uid now us).failure_awareness_avg ≤ 1) ∧
      (0 ≤ (updateUserStateRow scores uid now us).dsa_predict_skill ∧
        (updateUserStateRow scores uid now us).dsa_predict_skill ≤ 1)) ∧
    ((userVals scores uid (·.clarity) ≠ [] →
        (updateUserStateRow scores uid now us).clarity_avg =
          (userVals scores uid (·.clarity)).sum /
            ((userVals scores uid (·.clarity)).length : ℚ)) ∧
      (userVals scores uid (·.tradeoffs) ≠ [] →
        (updateUserStateRow scores uid now us).tradeoff_avg =
          (userVals scores uid (·.tradeoffs)).sum /
            ((userVals scores uid (·.tradeoffs)).length : ℚ)) ∧
      (userVals scores uid (·.adaptability) ≠ [] →
        (updateUserStateRow scores uid now us).adaptability_avg =
          (userVals scores uid (·.adaptability)).sum /
            ((userVals scores uid (·.adaptability)).length : ℚ)) ∧
      (userVals scores uid (·.failure_awareness) ≠ [] →
        (updateUserStateRow scores uid now us).failure_awareness_avg =
          (userVals scores uid (·.failure_awareness)).sum /
            ((userVals scores uid (·.failure_awareness)).length : ℚ)) ∧
      (userVals scores uid (·.dsa_predict) ≠ [] →
        (updateUserStateRow scores uid now us).dsa_predict_skill =
          (userVals scores uid (·.dsa_predict)).sum /
            ((userVals scores uid (·.dsa_predict)).length : ℚ))) := by
  obtain ⟨h1, h2, h3, h4, h5⟩ := hus
  have hcol : ∀ col : ScoreRow → Option ℚ,
      (∀ r : ScoreRow, ∀ v : ℚ, col r = some v →
        (r.clarity = some v ∨ r.tradeoffs = some v ∨ r.adaptability = some v ∨
          r.failure_awareness = some v ∨ r.dsa_predict = some v)) →
      ∀ v : ℚ, some v ∈ (scores.filter (fun r => r.user_id == uid)).map col →
        0 ≤ v ∧ v ≤ 1 := by
    intro col hcolsel v hvm
    rcases List.mem_map.mp hvm with ⟨r, hr, hre⟩
    rcases List.mem_filter.mp hr with ⟨hrs, hru⟩
    exact hrows r hrs (by simpa using hru) v (hcolsel r v hre)
  unfold updateUserStateRow
  by_cases h : (scores.filter (fun r => r.user_id == uid)).isEmpty
  · have hfe : scores.filter (fun r => r.user_id == uid) = [] :=
      List.isEmpty_iff.mp h
    have huv : ∀ col : ScoreRow → Option ℚ, userVals scores uid col = [] := by
      intro col
      simp [userVals, hfe]
    simp only [h, if_true]
    exact ⟨⟨⟨h1.1, h1.2⟩, ⟨h2.1, h2.2⟩, ⟨h3.1, h3.2⟩, ⟨h4.1, h4.2⟩, ⟨h5.1, h5.2⟩⟩,
      fun hne => absurd (huv _) hne, fun hne => absurd (huv _) hne,
      fun hne => absurd (huv _) hne, fun hne => absurd (huv _) hne,
      fun hne => absurd (huv _) hne⟩
  · simp only [h, if_false]
    refine ⟨⟨?_, ?_, ?_, ?_, ?_⟩, ?_, ?_, ?_, ?_, ?_⟩
    · exact sqlAvg_coalesce_mem_unit _ _
        (hcol (·.clarity) (fun r v hv => Or.inl hv)) h1
    · exact sqlAvg_coalesce_mem_unit _ _
        (hcol (·.tradeoffs) (fun r v hv => Or.inr (Or.inl hv))) h2
    · exact sqlAvg_coalesce_mem_unit _ _
        (hcol (·.adaptability) (fun r v hv => Or.inr (Or.inr (Or.inl hv)))) h3
    · exact sqlAvg_coalesce_mem_unit _ _
        (hcol (·.failure_awareness)
          (fun r v hv => Or.inr (Or.inr (Or.inr (Or.inl hv))))) h4
    · exact sqlAvg_coalesce_mem_unit _ _
        (hcol (·.dsa_predict)
          (fun r v hv => Or.inr (Or.inr (Or.inr (Or.inr hv))))) h5
    · intro hne
      exact sqlAvg_coalesce_mean _ _ hne
    · intro hne
      exact sqlAvg_coalesce_mean _ _ hne
    · intro hne
      exact sqlAvg_coalesce_mean _ _ hne
    · intro hne
      exact sqlAvg_coalesce_mean _ _ hne
    · intro hne
      exact sqlAvg_coalesce_mean _ _ hne

/-- A scores row carrying the out-of-range value 1.5 that an unclamped LLM
reply can produce (see the scorer pass-through). -/
def rangeCexRow : ScoreRow := ⟨"u1", some (3 / 2), none, none, none, none⟩

/-- A prior user_state row with the defaults. -/
def rangeCexUs : UserStateRow := ⟨"u1", 1, 1, 1, 1, 1, none, 0⟩

/-- C1 (counterexample): with a single scores row whose clarity is 1.5, the
aggregation writes clarity_avg = 1.5 > 1 into user_state — the invariant
"every dimension lies in [0,1] for every contents of the scores table" is
false on the code, which clamps nowhere. -/
theorem aggregator_unit_interval_cex :
    rangeCexRow.clarity = some (3 / 2) ∧
    (updateUserStateRow [rangeCexRow] "u1" 7 rangeCexUs).clarity_avg = 3 / 2 ∧
    ¬ (updateUserStateRow [rangeCexRow] "u1" 7 rangeCexUs).clarity_avg ≤ 1 := by
  have hfm : ([some ((3 : ℚ) / 2)].filterMap id) = [(3 : ℚ) / 2] := rfl
  have hval : (updateUserStateRow [rangeCexRow] "u1" 7 rangeCexUs).clarity_avg = 3 / 2 := by
    show coalesce (sqlAvg [some (3 / 2)]) 1 = 3 / 2
    unfold coalesce sqlAvg
    rw [hfm]
    norm_num
  refine ⟨rfl, hval, ?_⟩
  rw [hval]
  norm_num

/-- C1 (witness): the amended aggregation bound applied to a concrete
in-range table — clarity_avg stays in [0,1]. -/
theorem aggregator_unit_interval_amended_witness :
    0 ≤ (updateUserStateRow [⟨"u", some 1, some 0, none, none, some 1⟩] "u" 5
        ⟨"u", 1, 1, 1, 1, 1, none, 0⟩).clarity_avg ∧
      (updateUserStateRow [⟨"u", some 1, some 0, none, none, some 1⟩] "u" 5
        ⟨"u", 1, 1, 1, 1, 1, none, 0⟩).clarity_avg ≤ 1 := by
  have hrows : ∀ r ∈ [(⟨"u", some 1, some 0, none, none, some 1⟩ : ScoreRow)],
      r.user_id = "u" → ∀ v : ℚ,
      (r.clarity = some v ∨ r.tradeoffs = some v ∨ r.adaptability = some v ∨
        r.failure_awareness = some v ∨ r.dsa_predict = some v) →
      0 ≤ v ∧ v ≤ 1 := by
    intro r hr _ v hv
    simp only [List.mem_singleton] at hr
    subst hr
    rcases hv with h | h | h | h | h <;> simp_all <;> subst h <;> norm_num
  have hus : (0 ≤ (1 : ℚ) ∧ (1 : ℚ) ≤ 1) ∧ (0 ≤ (1 : ℚ) ∧ (1 : ℚ) ≤ 1) ∧
      (0 ≤ (1 : ℚ) ∧ (1 : ℚ) ≤ 1) ∧ (0 ≤ (1 : ℚ) ∧ (1 : ℚ) ≤ 1) ∧
      (0 ≤ (1 : ℚ) ∧ (1 : ℚ) ≤ 1) := by norm_num
  exact (aggregator_unit_interval_amended
    [⟨"u", some 1, some 0, none, none, some 1⟩] "u" 5
    ⟨"u", 1, 1, 1, 1, 1, none, 0⟩ hrows hus).1.1

/-- C5 (amended): running the aggregation twice in a row with no new scores
rows leaves every column except `last_update` exactly as after the first
run; `last_update` alone is refreshed to the second run's NOW() whenever the
user has at least one scores row (with no rows at all, the UPDATE matches
nothing and the row is entirely untouched). Byte-identity including
`last_update`, as claimed, does not hold. -/
theorem aggregator_idempotent_mod_last_update (scores : List ScoreRow) (uid : String)
    (t₁ t₂ : ℚ) (us : UserStateRow) :
    (updateUserStateRow scores uid t₂ (updateUserStateRow scores uid t₁ us)).clarity_avg =
        (updateUserStateRow scores uid t₁ us).clarity_avg ∧
    (updateUserStateRow scores uid t₂ (updateUserStateRow scores uid t₁ us)).tradeoff_avg =
        (updateUserStateRow scores uid t₁ us).tradeoff_avg ∧
    (updateUserStateRow scores uid t₂
        (updateUserStateRow scores uid t₁ us)).adaptability_avg =
        (updateUserStateRow scores uid t₁ us).adaptability_avg ∧
    (updateUserStateRow scores uid t₂
        (updateUserStateRow scores uid t₁ us)).failure_awareness_avg =
        (updateUserStateRow scores uid t₁ us).failure_awareness_avg ∧
    (updateUserStateRow scores uid t₂
        (updateUserStateRow scores uid t₁ us)).dsa_predict_skill =
        (updateUserStateRow scores uid t₁ us).dsa_predict_skill ∧
    (updateUserStateRow scores uid t₂ (updateUserStateRow scores uid t₁ us)).next_module =
        (updateUserStateRow scores uid t₁ us).next_module ∧
    (updateUserStateRow scores uid t₂ (updateUserStateRow scores uid t₁ us)).user_id =
        (updateUserStateRow scores uid t₁ us).user_id ∧
    ((scores.filter (fun r => r.user_id == uid)).isEmpty = false →
      (updateUserStateRow scores uid t₂
        (updateUserStateRow scores uid t₁ us)).last_update = t₂) ∧
    ((scores.filter (fun r => r.user_id == uid)).isEmpty = true →
      updateUserStateRow scores uid t₁ us = us) := by
  unfold updateUserStateRow
  by_cases h : (scores.filter (fun r => r.user_id == uid)).isEmpty <;>
    simp [h, coalesce_getD_idem]

/-- A scores row making the user's aggregation subquery non-empty. -/
def idemCexRow : ScoreRow := ⟨"u", some 1, none, none, none, none⟩

/-- A prior user_state row. -/
def idemCexUs : UserStateRow := ⟨"u", 1, 1, 1, 1, 1, none, 0⟩

/-- C5 (counterexample): two successive aggregation runs at NOW() = 0 and
NOW() = 1 over the same scores table produce rows differing in
`last_update`, so the result is not byte-identical over all columns. -/
theorem aggregator_idempotence_cex :
    (updateUserStateRow [idemCexRow] "u" 1
        (updateUserStateRow [idemCexRow] "u" 0 idemCexUs)).last_update = 1 ∧
    (updateUserStateRow [idemCexRow] "u" 0 idemCexUs).last_update = 0 ∧
    updateUserStateRow [idemCexRow] "u" 1
        (updateUserStateRow [idemCexRow] "u" 0 idemCexUs) ≠
      updateUserStateRow [idemCexRow] "u" 0 idemCexUs := by
  have h1 : (updateUserStateRow [idemCexRow] "u" 1
      (updateUserStateRow [idemCexRow] "u" 0 idemCexUs)).last_update = 1 := rfl
  have h0 : (updateUserStateRow [idemCexRow] "u" 0 idemCexUs).last_update = 0 := rfl
  refine ⟨h1, h0, fun hc => ?_⟩
  rw [hc, h0] at h1
  norm_num at h1

/-- C5 (witness): the amended idempotence applied to a concrete table — the
skill columns agree across the two runs and last_update takes the second
run's clock. -/
theorem aggregator_idempotent_mod_last_update_witness :
    (updateUserStateRow [idemCexRow] "u" 5
        (updateUserStateRow [idemCexRow] "u" 3 idemCexUs)).clarity_avg =
      (updateUserStateRow [idemCexRow] "u" 3 idemCexUs).clarity_avg ∧
    (updateUserStateRow [idemCexRow] "u" 5
        (updateUserStateRow [idemCexRow] "u" 3 idemCexUs)).last_update = 5 := by
  have h := aggregator_idempotent_mod_last_update [idemCexRow] "u" 3 5 idemCexUs
  exact ⟨h.1, h.2.2.2.2.2.2.2.1 rfl⟩

/-! Helper lemmas about the circuit breaker. -/

lemma cb_is_available_fst (cb : CircuitBreaker) (now : ℚ) :
    (cb.is_available now).1 = (cb.stateAt now).1 := by
  unfold CircuitBreaker.is_available
  cases h : (cb.stateAt now).2 <;> simp [h]

lemma cb_record_success_good (cb : CircuitBreaker) (t : ℚ) :
    (cb.record_success t).failure_threshold = cb.failure_threshold ∧
    (cb.record_success t).consecutive_failures = 0 := by
  unfold CircuitBreaker.record_success CircuitBreaker.transition
  dsimp only
  split_ifs <;> exact ⟨rfl, rfl⟩

lemma cb_record_failure_good (cb : CircuitBreaker) (t : ℚ) :
    (cb.record_failure t).failure_threshold = cb.failure_threshold ∧
    ((cb.record_failure t).state_raw = CBState.closed →
      (cb.record_failure t).consecutive_failures <
        (cb.record_failure t).failure_threshold) := by
  unfold CircuitBreaker.record_failure CircuitBreaker.transition
  dsimp only
  by_cases h1 : cb.state_raw = CBState.half_open
  · rw [if_pos h1]
    exact ⟨rfl, fun h => by simp at h⟩
  · rw [if_neg h1]
    by_cases h2 : cb.failure_threshold ≤ cb.consecutive_failures + 1
    · rw [if_pos h2]
      exact ⟨rfl, fun h => by simp at h⟩
    · rw [if_neg h2]
      exact ⟨rfl, fun _ => Nat.lt_of_not_le h2⟩

lemma cb_stateAt_good (cb : CircuitBreaker) (t : ℚ)
    (hg : cb.state_raw = CBState.closed →
      cb.consecutive_failures < cb.failure_threshold) :
    ((cb.stateAt t).1).failure_threshold = cb.failure_threshold ∧
    (((cb.stateAt t).1).state_raw = CBState.closed →
      ((cb.stateAt t).1).consecutive_failures <
        ((cb.stateAt t).1).failure_threshold) := by
  unfold CircuitBreaker.stateAt CircuitBreaker.transition
  rcases hs : cb.state_raw with _ | _ | _
  · exact ⟨rfl, fun _ => hg hs⟩
  · rcases hl : cb.last_failure_time with _ | t'
    · exact ⟨rfl, fun h => CBState.noConfusion (hs.symm.trans h)⟩
    · dsimp only
      split_ifs with ht <;>
        first
          | exact ⟨rfl, fun h => h.elim⟩
          | exact ⟨rfl, fun h => CBState.noConfusion (hs.symm.trans h)⟩
  · exact ⟨rfl, fun h => CBState.noConfusion (hs.symm.trans h)⟩

lemma cb_reset_good (cb : CircuitBreaker) (t : ℚ) :
    (cb.reset t).failure_threshold = cb.failure_threshold ∧
    (cb.reset t).consecutive_failures = 0 := by
  unfold CircuitBreaker.reset CircuitBreaker.transition
  exact ⟨rfl, rfl⟩

lemma cb_step_good (cb : CircuitBreaker) (op : CBOp)
    (hft : 1 ≤ cb.failure_threshold)
    (hg : cb.state_raw = CBState.closed →
      cb.consecutive_failures < cb.failure_threshold) :
    (cb.step op).failure_threshold = cb.failure_threshold ∧
    ((cb.step op).state_raw = CBState.closed →
      (cb.step op).consecutive_failures < (cb.step op).failure_threshold) := by
  cases op with
  | record_success t =>
    have h := cb_record_success_good cb t
    refine ⟨h.1, fun _ => ?_⟩
    show (cb.record_success t).consecutive_failures <
      (cb.record_success t).failure_threshold
    rw [h.2, h.1]
    exact hft
  | record_failure t => exact cb_record_failure_good cb t
  | read_state t => exact cb_stateAt_good cb t hg
  | read_available t =>
    show ((cb.is_available t).1).failure_threshold = cb.failure_threshold ∧
      (((cb.is_available t).1).state_raw = CBState.closed →
        ((cb.is_available t).1).consecutive_failures <
          ((cb.is_available t).1).failure_threshold)
    rw [cb_is_available_fst]
    exact cb_stateAt_good cb t hg
  | reset t =>
    have h := cb_reset_good cb t
    refine ⟨h.1, fun _ => ?_⟩
    show (cb.reset t).consecutive_failures < (cb.reset t).failure_threshold
    rw [h.2, h.1]
    exact hft

lemma cb_run_good (cb : CircuitBreaker) (ops : List CBOp)
    (hft : 1 ≤ cb.failure_threshold)
    (hg : cb.state_raw = CBState.closed →
      cb.consecutive_failures < cb.failure_threshold) :
    (cb.run ops).failure_threshold = cb.failure_threshold ∧
    ((cb.run ops).state_raw = CBState.closed →
      (cb.run ops).consecutive_failures < (cb.run ops).failure_threshold) := by
  induction ops generalizing cb with
  | nil => exact ⟨rfl, hg⟩
  | cons op rest ih =>
    have h := cb_step_good cb op hft hg
    have h' := ih (cb.step op) (h.1 ▸ hft) (fun hs => (h.1).symm ▸ h.2 hs)
    exact ⟨h'.1.trans h.1, h'.2⟩

/-- C3 (amended): starting from a fresh breaker with `failure_threshold ≥ 1`,
after any operation sequence, whenever `consecutive_failures ≥
failure_threshold` the state is open or half_open — half_open arising from
the lazy open → half_open transition once the recovery timeout elapses,
which does NOT clear `consecutive_failures`. (The original claim, that the
state must then be open, is refuted by exactly that transition; the "unless
reset" proviso never applies, since `reset` clears the counter.) -/
theorem circuit_breaker_failures_not_closed (ft : ℕ) (rt : ℚ) (hm : ℕ)
    (ops : List CBOp) (hft : 1 ≤ ft)
    (hcf : ft ≤ ((CircuitBreaker.init ft rt hm).run ops).consecutive_failures) :
    ((CircuitBreaker.init ft rt hm).run ops).state_raw = CBState.opened ∨
      ((CircuitBreaker.init ft rt hm).run ops).state_raw = CBState.half_open := by
  have h := cb_run_good (CircuitBreaker.init ft rt hm) ops (by simpa [CircuitBreaker.init] using hft)
    (fun _ => by simpa [CircuitBreaker.init] using hft)
  rcases hs : ((CircuitBreaker.init ft rt hm).run ops).state_raw with _ | _ | _
  · have hlt := h.2 hs
    rw [h.1] at hlt
    exact absurd hcf (Nat.not_le.mpr (by simpa [CircuitBreaker.init] using hlt))
  · exact Or.inl rfl
  · exact Or.inr rfl

/-- C3 (counterexample): with `failure_threshold = 1` and
`recovery_timeout_s = 60`, record one failure at t = 0 (the breaker opens,
`consecutive_failures = 1`), then merely read `state` at t = 60. The lazy
transition moves the breaker to half_open while `consecutive_failures (= 1)
≥ failure_threshold (= 1)` still holds and `reset` was never called — so the
claimed invariant "consecutive_failures ≥ threshold implies state = open
unless reset" is false. -/
theorem circuit_breaker_open_invariant_cex :
    (∀ t : ℚ, CBOp.reset t ∉ [CBOp.record_failure 0, CBOp.read_state 60]) ∧
    ((CircuitBreaker.init 1 60 2).run
        [CBOp.record_failure 0, CBOp.read_state 60]).failure_threshold ≤
      ((CircuitBreaker.init 1 60 2).run
        [CBOp.record_failure 0, CBOp.read_state 60]).consecutive_failures ∧
    ((CircuitBreaker.init 1 60 2).run
        [CBOp.record_failure 0, CBOp.read_state 60]).state_raw ≠ CBState.opened ∧
    ((CircuitBreaker.init 1 60 2).run
        [CBOp.record_failure 0, CBOp.read_state 60]).state_raw = CBState.half_open := by
  have s1 : (CircuitBreaker.init 1 60 2).step (CBOp.record_failure 0) =
      ⟨1, 60, 2, CBState.opened, 1, 0, 1, 0, 1, 0, some 0, none, 1, some 0, 0⟩ := by
    simp [CircuitBreaker.step, CircuitBreaker.record_failure, CircuitBreaker.transition,
      CircuitBreaker.init]
  have s2 : ((⟨1, 60, 2, CBState.opened, 1, 0, 1, 0, 1, 0, some 0, none, 1, some 0, 0⟩ :
      CircuitBreaker).step (CBOp.read_state 60)) =
      ⟨1, 60, 2, CBState.half_open, 1, 0, 1, 0, 1, 0, some 0, none, 2, some 60, 0⟩ := by
    show ((⟨1, 60, 2, CBState.opened, 1, 0, 1, 0, 1, 0, some 0, none, 1, some 0, 0⟩ :
      CircuitBreaker).stateAt 60).1 = _
    unfold CircuitBreaker.stateAt CircuitBreaker.transition
    dsimp only
    rw [if_pos (by norm_num)]
    simp
  have hrun : (CircuitBreaker.init 1 60 2).run [CBOp.record_failure 0, CBOp.read_state 60] =
      ⟨1, 60, 2, CBState.half_open, 1, 0, 1, 0, 1, 0, some 0, none, 2, some 60, 0⟩ := by
    show ((CircuitBreaker.init 1 60 2).step (CBOp.record_failure 0)).step
      (CBOp.read_state 60) = _
    rw [s1, s2]
  refine ⟨?_, ?_, ?_, ?_⟩
  · intro t
    simp
  · rw [hrun]
  · rw [hrun]
    simp
  · rw [hrun]

/-- C3 (witness): the amended theorem applied to one recorded failure with
threshold 1 — the state is open or half_open (here open). -/
theorem circuit_breaker_failures_not_closed_witness :
    ((CircuitBreaker.init 1 60 2).run [CBOp.record_failure 0]).state_raw =
        CBState.opened ∨
      ((CircuitBreaker.init 1 60 2).run [CBOp.record_failure 0]).state_raw =
        CBState.half_open :=
  circuit_breaker_failures_not_closed 1 60 2 [CBOp.record_failure 0] (by norm_num)
    (by simp [CircuitBreaker.run, CircuitBreaker.step, CircuitBreaker.record_failure,
      CircuitBreaker.transition, CircuitBreaker.init])

/-- C6: for every candidate module, user state and memory context, the
total score computed by `_score_candidate` under the default signal weights
equals base weight × (0.40·weakness_severity + 0.15·rate_of_change +
0.15·recency + 0.15·goal_alignment + 0.15·pattern + 0.05·diversity_bonus −
cooldown_penalty). -/
theorem total_score_formula (mod_def : ModuleDefinition) (state : UserState)
    (mem : MemoryContext) :
    (DecisionEngine.score_candidate {} mod_def state mem).total_score =
      mod_def.weight *
        (0.40 * DecisionEngine.calc_weakness_severity {} mod_def state
          + 0.15 * DecisionEngine.calc_rate_of_change mod_def state mem
          + 0.15 * DecisionEngine.calc_recency_score mod_def.name state
          + 0.15 * DecisionEngine.calc_goal_alignment mod_def state
          + 0.15 * DecisionEngine.calc_pattern_signal mod_def.name mem
          + 0.05 * DecisionEngine.calc_diversity_bonus mod_def.name state
          - DecisionEngine.calc_cooldown_penalty {} mod_def.name state) := by
  simp only [DecisionEngine.score_candidate]
  ring

/-- The five skill dimension keys, in the dict order of `SkillScores`. -/
def SKILL_DIMENSION_NAMES : List String :=
  ["clarity_avg", "tradeoff_avg", "adaptability_avg", "failure_awareness_avg",
    "dsa_predict_skill"]

/-- Decision depth as the claim C7 words it, written over the five named
dimensions — to be compared against the engine's `_determine_depth`. -/
def depth_spec (state : UserState) : DecisionDepth :=
  if state.scores.clarity_avg < 0.2 ∨ state.scores.tradeoff_avg < 0.2 ∨
      state.scores.adaptability_avg < 0.2 ∨ state.scores.failure_awareness_avg < 0.2 ∨
      state.scores.dsa_predict_skill < 0.2 then .critical
  else if state.scores.clarity_avg < 0.4 ∨ state.scores.tradeoff_avg < 0.4 ∨
      state.scores.adaptability_avg < 0.4 ∨ state.scores.failure_awareness_avg < 0.4 ∨
      state.scores.dsa_predict_skill < 0.4 then .remediation
  else if (0.99 ≤ state.scores.clarity_avg ∧ 0.99 ≤ state.scores.tradeoff_avg ∧
      0.99 ≤ state.scores.adaptability_avg ∧ 0.99 ≤ state.scores.failure_awareness_avg ∧
      0.99 ≤ state.scores.dsa_predict_skill) ∧ state.recent_modules = [] then .onboarding
  else .normal

lemma dim_val_clarity (s : SkillScores) :
    DecisionEngine.dim_val s "clarity_avg" = s.clarity_avg := rfl

lemma dim_val_tradeoff (s : SkillScores) :
    DecisionEngine.dim_val s "tradeoff_avg" = s.tradeoff_avg := rfl

lemma dim_val_adaptability (s : SkillScores) :
    DecisionEngine.dim_val s "adaptability_avg" = s.adaptability_avg := rfl

lemma dim_val_failure (s : SkillScores) :
    DecisionEngine.dim_val s "failure_awareness_avg" = s.failure_awareness_avg := rfl

lemma dim_val_dsa (s : SkillScores) :
    DecisionEngine.dim_val s "dsa_predict_skill" = s.dsa_predict_skill := rfl

lemma determine_depth_eq_spec (state : UserState) :
    DecisionEngine.determine_depth {} state = depth_spec state := by
  unfold DecisionEngine.determine_depth depth_spec
  simp only [SkillScores.to_dict, List.any_cons, List.any_nil, List.all_cons,
    List.all_nil, Bool.or_false, Bool.and_true, decide_eq_true_eq, Bool.or_eq_true,
    Bool.and_eq_true, List.isEmpty_iff]

/-- C7: the decision depth is critical if any dimension < 0.2, else
remediation if any dimension < 0.4, else onboarding if all dimensions ≥ 0.99
and `recent_modules` is empty, else normal (under the default thresholds);
and when exactly one dimension sits at 0.15 with all others above the 0.4
weakness threshold, the depth is critical and that dimension is the
`weakness_trigger` reported by `weakest_dimension`. -/
theorem depth_classification :
    (∀ state : UserState, DecisionEngine.determine_depth {} state = depth_spec state) ∧
    (∀ (state : UserState) (d : String), d ∈ SKILL_DIMENSION_NAMES →
      DecisionEngine.dim_val state.scores d = 0.15 →
      (∀ d' ∈ SKILL_DIMENSION_NAMES, d' ≠ d →
        0.4 < DecisionEngine.dim_val state.scores d') →
      DecisionEngine.determine_depth {} state = DecisionDepth.critical ∧
      state.scores.weakest_dimension 0.4 = some d) := by
  refine ⟨determine_depth_eq_spec, ?_⟩
  intro state d hd h1 h2
  simp only [SKILL_DIMENSION_NAMES, List.mem_cons, List.not_mem_nil, or_false] at hd
  rcases hd with rfl | rfl | rfl | rfl | rfl
  · rw [dim_val_clarity] at h1
    have ht := h2 "tradeoff_avg" (by decide) (by decide)
    have ha := h2 "adaptability_avg" (by decide) (by decide)
    have hf := h2 "failure_awareness_avg" (by decide) (by decide)
    have hds := h2 "dsa_predict_skill" (by decide) (by decide)
    rw [dim_val_tradeoff] at ht
    rw [dim_val_adaptability] at ha
    rw [dim_val_failure] at hf
    rw [dim_val_dsa] at hds
    have hx2 : state.scores.clarity_avg < 0.2 := by rw [h1]; norm_num
    have hx4 : state.scores.clarity_avg < 0.4 := by rw [h1]; norm_num
    constructor
    · rw [determine_depth_eq_spec]
      unfold depth_spec
      rw [if_pos (Or.inl hx2)]
    · unfold SkillScores.weakest_dimension
      have e1 : Decidable.decide (state.scores.clarity_avg < (0.4 : ℚ)) = true :=
        decide_eq_true hx4
      have e2 : Decidable.decide (state.scores.tradeoff_avg < (0.4 : ℚ)) = false :=
        decide_eq_false (not_lt.mpr ht.le)
      have e3 : Decidable.decide (state.scores.adaptability_avg < (0.4 : ℚ)) = false :=
        decide_eq_false (not_lt.mpr ha.le)
      have e4 : Decidable.decide (state.scores.failure_awareness_avg < (0.4 : ℚ)) = false :=
        decide_eq_false (not_lt.mpr hf.le)
      have e5 : Decidable.decide (state.scores.dsa_predict_skill < (0.4 : ℚ)) = false :=
        decide_eq_false (not_lt.mpr hds.le)
      simp only [SkillScores.to_dict, List.filter_cons, List.filter_nil, e1, e2, e3, e4,
        e5, if_true, if_false]
      simp
  · rw [dim_val_tradeoff] at h1
    have hc := h2 "clarity_avg" (by decide) (by decide)
    have ha := h2 "adaptability_avg" (by decide) (by decide)
    have hf := h2 "failure_awareness_avg" (by decide) (by decide)
    have hds := h2 "dsa_predict_skill" (by decide) (by decide)
    rw [dim_val_clarity] at hc
    rw [dim_val_adaptability] at ha
    rw [dim_val_failure] at hf
    rw [dim_val_dsa] at hds
    have hx2 : state.scores.tradeoff_avg < 0.2 := by rw [h1]; norm_num
    have hx4 : state.scores.tradeoff_avg < 0.4 := by rw [h1]; norm_num
    constructor
    · rw [determine_depth_eq_spec]
      unfold depth_spec
      rw [if_pos (Or.inr (Or.inl hx2))]
    · unfold SkillScores.weakest_dimension
      have e1 : Decidable.decide (state.scores.clarity_avg < (0.4 : ℚ)) = false :=
        decide_eq_false (not_lt.mpr hc.le)
      have e2 : Decidable.decide (state.scores.tradeoff_avg < (0.4 : ℚ)) = true :=
        decide_eq_true hx4
      have e3 : Decidable.decide (state.scores.adaptability_avg < (0.4 : ℚ)) = false :=
        decide_eq_false (not_lt.mpr ha.le)
      have e4 : Decidable.decide (state.scores.failure_awareness_avg < (0.4 : ℚ)) = false :=
        decide_eq_false (not_lt.mpr hf.le)
      have e5 : Decidable.decide (state.scores.dsa_predict_skill < (0.4 : ℚ)) = false :=
        decide_eq_false (not_lt.mpr hds.le)
      simp only [SkillScores.to_dict, List.filter_cons, List.filter_nil, e1, e2, e3, e4,
        e5, if_true, if_false]
      simp
  · rw [dim_val_adaptability] at h1
    have hc := h2 "clarity_avg" (by decide) (by decide)
    have ht := h2 "tradeoff_avg" (by decide) (by decide)
    have hf := h2 "failure_awareness_avg" (by decide) (by decide)
    have hds := h2 "dsa_predict_skill" (by decide) (by decide)
    rw [dim_val_clarity] at hc
    rw [dim_val_tradeoff] at ht
    rw [dim_val_failure] at hf
    rw [dim_val_dsa] at hds
    have hx2 : state.scores.adaptability_avg < 0.2 := by rw [h1]; norm_num
    have hx4 : state.scores.adaptability_avg < 0.4 := by rw [h1]; norm_num
    constructor
    · rw [determine_depth_eq_spec]
      unfold depth_spec
      rw [if_pos (Or.inr (Or.inr (Or.inl hx2)))]
    · unfold SkillScores.weakest_dimension
      have e1 : Decidable.decide (state.scores.clarity_avg < (0.4 : ℚ)) = false :=
        decide_eq_false (not_lt.mpr hc.le)
      have e2 : Decidable.decide (state.scores.tradeoff_avg < (0.4 : ℚ)) = false :=
        decide_eq_false (not_lt.mpr ht.le)
      have e3 : Decidable.decide (state.scores.adaptability_avg < (0.4 : ℚ)) = true :=
        decide_eq_true hx4
      have e4 : Decidable.decide (state.scores.failure_awareness_avg < (0.4 : ℚ)) = false :=
        decide_eq_false (not_lt.mpr hf.le)
      have e5 : Decidable.decide (state.scores.dsa_predict_skill < (0.4 : ℚ)) = false :=
        decide_eq_false (not_lt.mpr hds.le)
      simp only [SkillScores.to_dict, List.filter_cons, List.filter_nil, e1, e2, e3, e4,
        e5, if_true, if_false]
      simp
  · rw [dim_val_failure] at h1
    have hc := h2 "clarity_avg" (by decide) (by decide)
    have ht := h2 "tradeoff_avg" (by decide) (by decide)
    have ha := h2 "adaptability_avg" (by decide) (by decide)
    have hds := h2 "dsa_predict_skill" (by decide) (by decide)
    rw [dim_val_clarity] at hc
    rw [dim_val_tradeoff] at ht
    rw [dim_val_adaptability] at ha
    rw [dim_val_dsa] at hds
    have hx2 : state.scores.failure_awareness_avg < 0.2 := by rw [h1]; norm_num
    have hx4 : state.scores.failure_awareness_avg < 0.4 := by rw [h1]; norm_num
    constructor
    · rw [determine_depth_eq_spec]
      unfold depth_spec
      rw [if_pos (Or.inr (Or.inr (Or.inr (Or.inl hx2))))]
    · unfold SkillScores.weakest_dimension
      have e1 : Decidable.decide (state.scores.clarity_avg < (0.4 : ℚ)) = false :=
        decide_eq_false (not_lt.mpr hc.le)
      have e2 : Decidable.decide (state.scores.tradeoff_avg < (0.4 : ℚ)) = false :=
        decide_eq_false (not_lt.mpr ht.le)
      have e3 : Decidable.decide (state.scores.adaptability_avg < (0.4 : ℚ)) = false :=
        decide_eq_false (not_lt.mpr ha.le)
      have e4 : Decidable.decide (state.scores.failure_awareness_avg < (0.4 : ℚ)) = true :=
        decide_eq_true hx4
      have e5 : Decidable.decide (state.scores.dsa_predict_skill < (0.4 : ℚ)) = false :=
        decide_eq_false (not_lt.mpr hds.le)
      simp only [SkillScores.to_dict, List.filter_cons, List.filter_nil, e1, e2, e3, e4,
        e5, if_true, if_false]
      simp
  · rw [dim_val_dsa] at h1
    have hc := h2 "clarity_avg" (by decide) (by decide)
    have ht := h2 "tradeoff_avg" (by decide) (by decide)
    have ha := h2 "adaptability_avg" (by decide) (by decide)
    have hf := h2 "failure_awareness_avg" (by decide) (by decide)
    rw [dim_val_clarity] at hc
    rw [dim_val_tradeoff] at ht
    rw [dim_val_adaptability] at ha
    rw [dim_val_failure] at hf
    have hx2 : state.scores.dsa_predict_skill < 0.2 := by rw [h1]; norm_num
    have hx4 : state.scores.dsa_predict_skill < 0.4 := by rw [h1]; norm_num
    constructor
    · rw [determine_depth_eq_spec]
      unfold depth_spec
      rw [if_pos (Or.inr (Or.inr (Or.inr (Or.inr hx2))))]
    · unfold SkillScores.weakest_dimension
      have e1 : Decidable.decide (state.scores.clarity_avg < (0.4 : ℚ)) = false :=
        decide_eq_false (not_lt.mpr hc.le)
      have e2 : Decidable.decide (state.scores.tradeoff_avg < (0.4 : ℚ)) = false :=
        decide_eq_false (not_lt.mpr ht.le)
      have e3 : Decidable.decide (state.scores.adaptability_avg < (0.4 : ℚ)) = false :=
        decide_eq_false (not_lt.mpr ha.le)
      have e4 : Decidable.decide (state.scores.failure_awareness_avg < (0.4 : ℚ)) = false :=
        decide_eq_false (not_lt.mpr hf.le)
      have e5 : Decidable.decide (state.scores.dsa_predict_skill < (0.4 : ℚ)) = true :=
        decide_eq_true hx4
      simp only [SkillScores.to_dict, List.filter_cons, List.filter_nil, e1, e2, e3, e4,
        e5, if_true, if_false]
      simp

/-- The user state of the witness: clarity at 0.15, every other dimension at
0.8. -/
def depthWitnessState : UserState :=
  { user_id := "u7"
    scores :=
      { clarity_avg := 0.15
        tradeoff_avg := 0.8
        adaptability_avg := 0.8
        failure_awareness_avg := 0.8
        dsa_predict_skill := 0.8 } }

/-- C7 (witness): the classification applied to clarity = 0.15 with the
other dimensions at 0.8 — depth critical, clarity_avg the trigger. -/
theorem depth_classification_witness :
    DecisionEngine.determine_depth {} depthWitnessState = DecisionDepth.critical ∧
    depthWitnessState.scores.weakest_dimension 0.4 = some "clarity_avg" := by
  have h2 : ∀ d' ∈ SKILL_DIMENSION_NAMES, d' ≠ "clarity_avg" →
      (0.4 : ℚ) < DecisionEngine.dim_val depthWitnessState.scores d' := by
    intro d' hd' hne
    simp only [SKILL_DIMENSION_NAMES, List.mem_cons, List.not_mem_nil, or_false] at hd'
    rcases hd' with rfl | rfl | rfl | rfl | rfl
    · exact absurd rfl hne
    · rw [show DecisionEngine.dim_val depthWitnessState.scores "tradeoff_avg" = 0.8
        from rfl]
      norm_num
    · rw [show DecisionEngine.dim_val depthWitnessState.scores "adaptability_avg" = 0.8
        from rfl]
      norm_num
    · rw [show DecisionEngine.dim_val depthWitnessState.scores "failure_awareness_avg" =
        0.8 from rfl]
      norm_num
    · rw [show DecisionEngine.dim_val depthWitnessState.scores "dsa_predict_skill" = 0.8
        from rfl]
      norm_num
  exact depth_classification.2 depthWitnessState "clarity_avg" (by decide) rfl h2

/-! Helper lemmas about the decide pipeline. -/

lemma list_lookup_mem {β : Type} (l : List (String × β)) (a : String) (b : β)
    (h : l.lookup a = some b) : (a, b) ∈ l := by
  induction l with
  | nil => simp [List.lookup] at h
  | cons p t ih =>
    obtain ⟨k, v⟩ := p
    rw [List.lookup_cons] at h
    cases hk : a == k with
    | true =>
      rw [hk] at h
      simp only [Option.some.injEq] at h
      subst h
      have : a = k := eq_of_beq hk
      subst this
      exact List.mem_cons_self _ _
    | false =>
      rw [hk] at h
      exact List.mem_cons_of_mem _ (ih h)

lemma lookup_isSome_of_mem_keys {β : Type} (l : List (String × β)) (a : String)
    (h : a ∈ l.map Prod.fst) : (l.lookup a).isSome := by
  induction l with
  | nil => simp at h
  | cons p t ih =>
    obtain ⟨k, v⟩ := p
    rw [List.lookup_cons]
    by_cases hk : a = k
    · rw [show (a == k) = true from beq_iff_eq.mpr hk]
      rfl
    · rw [show (a == k) = false from beq_eq_false_iff_ne.mpr hk]
      apply ih
      simp only [List.map_cons, List.mem_cons] at h
      rcases h with h | h
      · exact absurd h hk
      · exact h

lemma MODULES_name_eq : ∀ p ∈ MODULES, p.2.name = p.1 := by decide

lemma get_candidates_subset (state : UserState) (sh : List (String × Bool)) :
    ∀ c ∈ DecisionEngine.get_candidates state sh, c ∈ MODULES.map Prod.fst := by
  intro c hc
  unfold DecisionEngine.get_candidates at hc
  rcases List.mem_map.mp hc with ⟨p, hp, rfl⟩
  exact List.mem_map_of_mem _ (List.mem_of_mem_filter hp)

lemma apply_diversity_filter_eq (cfg : EngineConfig) (state : UserState)
    (top : ModuleScore) (rest : List ModuleScore) :
    DecisionEngine.apply_diversity_filter cfg (top :: rest) state =
      if cfg.max_consecutive_same_module ≤
            DecisionEngine.consecutive_count state.recent_modules ∧
          state.recent_modules.head? = some top.module ∧ rest ≠ [] then
        rest.head?
      else some top := by
  unfold DecisionEngine.apply_diversity_filter
  dsimp only
  rcases hrm : state.recent_modules with _ | ⟨m₀, l⟩
  · rw [if_pos (show ([] : List String).isEmpty = true from rfl), if_neg]
    rintro ⟨-, h2, -⟩
    simp at h2
  · rw [if_neg (by simp)]
    dsimp only [List.head?, Option.getD]
    have hiff : (cfg.max_consecutive_same_module ≤
          DecisionEngine.consecutive_count (m₀ :: l) ∧
        top.module = m₀ ∧ rest ≠ []) ↔
        (cfg.max_consecutive_same_module ≤
          DecisionEngine.consecutive_count (m₀ :: l) ∧
        some m₀ = some top.module ∧ rest ≠ []) := by
      constructor
      · rintro ⟨a, b, c⟩
        exact ⟨a, by rw [b], c⟩
      · rintro ⟨a, b, c⟩
        exact ⟨a, (Option.some.inj b).symm, c⟩
    rw [if_congr hiff rfl rfl]

lemma apply_diversity_filter_mem (cfg : EngineConfig) (scored : List ModuleScore)
    (state : UserState) (w : ModuleScore)
    (h : DecisionEngine.apply_diversity_filter cfg scored state = some w) :
    w ∈ scored := by
  cases scored with
  | nil => simp [DecisionEngine.apply_diversity_filter] at h
  | cons top rest =>
    rw [apply_diversity_filter_eq] at h
    split_ifs at h
    · cases rest with
      | nil => simp at h
      | cons r t =>
        simp only [List.head?, Option.some.injEq] at h
        subst h
        exact List.mem_cons_of_mem _ (List.mem_cons_self _ _)
    · simp only [Option.some.injEq] at h
      subst h
      exact List.mem_cons_self _ _

lemma apply_diversity_filter_isSome (cfg : EngineConfig)
    (scored : List ModuleScore) (state : UserState) (hne : scored ≠ []) :
    (DecisionEngine.apply_diversity_filter cfg scored state).isSome := by
  cases scored with
  | nil => exact absurd rfl hne
  | cons top rest =>
    rw [apply_diversity_filter_eq]
    split_ifs with hcond
    · cases rest with
      | nil => exact absurd rfl hcond.2.2
      | cons r t => rfl
    · rfl

/-- C8: the diversity filter picks the second candidate exactly when the top
candidate's module equals the most recently recommended module, that module
fills the head of `recent_modules` at least `max_consecutive_same_module`
times consecutively, and a second candidate exists — otherwise the first;
and every Decision the engine returns names a registry module and carries
`candidate_scores` sorted by total score descending. -/
theorem diversity_filter_and_decision :
    (∀ (cfg : EngineConfig) (state : UserState) (top : ModuleScore)
      (rest : List ModuleScore),
      DecisionEngine.apply_diversity_filter cfg (top :: rest) state =
        if cfg.max_consecutive_same_module ≤
              DecisionEngine.consecutive_count state.recent_modules ∧
            state.recent_modules.head? = some top.module ∧ rest ≠ [] then
          rest.head?
        else some top) ∧
    (∀ (cfg : EngineConfig) (state : UserState) (mem : MemoryContext)
      (sh : List (String × Bool)),
      (DecisionEngine.decide cfg state mem sh).next_module ∈ MODULES.map Prod.fst) ∧
    (∀ (cfg : EngineConfig) (state : UserState) (mem : MemoryContext)
      (sh : List (String × Bool)),
      List.Sorted (fun a b : ModuleScore => b.total_score ≤ a.total_score)
        (DecisionEngine.decide cfg state mem sh).candidate_scores) := by
  refine ⟨apply_diversity_filter_eq, ?_, ?_⟩
  · intro cfg state mem sh
    unfold DecisionEngine.decide
    dsimp only
    by_cases hc : (DecisionEngine.get_candidates state sh).isEmpty
    · rw [if_pos hc]
      exact (by decide : "project_studio" ∈ MODULES.map Prod.fst)
    · rw [if_neg hc]
      dsimp only
      set L := (DecisionEngine.get_candidates state sh).filterMap
        (fun n => (MODULES.lookup n).map
          (fun d => DecisionEngine.score_candidate cfg d state mem)) with hL
      set S := L.insertionSort
        (fun a b : ModuleScore => b.total_score ≤ a.total_score) with hS
      obtain ⟨c, cs, hcand⟩ : ∃ c cs,
          DecisionEngine.get_candidates state sh = c :: cs := by
        rcases h : DecisionEngine.get_candidates state sh with _ | ⟨c, cs⟩
        · rw [h] at hc
          exact absurd rfl hc
        · exact ⟨c, cs, rfl⟩
      have hcin : c ∈ MODULES.map Prod.fst :=
        get_candidates_subset state sh c (by rw [hcand]; exact List.mem_cons_self _ _)
      obtain ⟨d0, hd0⟩ := Option.isSome_iff_exists.mp
        (lookup_isSome_of_mem_keys MODULES c hcin)
      have hLne : L ≠ [] := by
        rw [hL, hcand]
        simp [List.filterMap_cons, hd0]
      have hSne : S ≠ [] := by
        intro h0
        apply hLne
        have hp := List.perm_insertionSort
          (fun a b : ModuleScore => b.total_score ≤ a.total_score) L
        rw [← hS, h0] at hp
        exact (hp.symm).eq_nil
      obtain ⟨w, hw⟩ := Option.isSome_iff_exists.mp
        (apply_diversity_filter_isSome cfg S state hSne)
      rw [hw]
      have hwmem : w ∈ L := by
        have := apply_diversity_filter_mem cfg S state w hw
        rw [hS, List.mem_insertionSort] at this
        exact this
      rcases List.mem_filterMap.mp hwmem with ⟨n, hn, hfn⟩
      rcases Option.map_eq_some'.mp hfn with ⟨dn, hdn, hwn⟩
      have hmod : w.module = dn.name := by
        subst hwn
        rfl
      have hname : dn.name = n :=
        MODULES_name_eq (n, dn) (list_lookup_mem MODULES n dn hdn)
      show ((some w).getD DecisionEngine.junkScore).module ∈ MODULES.map Prod.fst
      rw [Option.getD_some, hmod, hname]
      exact get_candidates_subset state sh n hn
  · intro cfg state mem sh
    haveI hto : IsTotal ModuleScore (fun a b => b.total_score ≤ a.total_score) :=
      ⟨fun a b => le_total b.total_score a.total_score⟩
    haveI htr : IsTrans ModuleScore (fun a b => b.total_score ≤ a.total_score) :=
      ⟨fun a b c h1 h2 => le_trans h2 h1⟩
    unfold DecisionEngine.decide
    dsimp only
    by_cases hc : (DecisionEngine.get_candidates state sh).isEmpty
    · rw [if_pos hc]
      exact List.sorted_nil
    · rw [if_neg hc]
      dsimp only
      have hs := List.sorted_insertionSort
        (fun a b : ModuleScore => b.total_score ≤ a.total_score)
        ((DecisionEngine.get_candidates state sh).filterMap
          (fun n => (MODULES.lookup n).map
            (fun d => DecisionEngine.score_candidate cfg d state mem)))
      exact List.Pairwise.sublist (List.take_sublist 5 _) hs

end StudyMate
